import Mathlib

/-!
Verification of the asynchronous job-orchestration core of the
video-understanding-comparisons backend.

The embedding follows the Python sources:
* `app/jobs.py` — the persistent `JobQueue` (file-per-job store);
* `app/api/jobs.py` — the job-management endpoints;
* `app/api/compare.py` — the comparison pipeline and its background runners.

Modelling choices:
* timestamps (ISO strings in the code, compared only by order) are `Nat`;
* the job-storage directory is a list of records paired with their file
  modification time (`Store`);
* external collaborators (the Gemini client, the JSON parser of the judge
  response, video storage) enter as outcome parameters, as in §6 of the
  design document;
* elapsed wall-clock times used by the progress estimators are rationals.
-/

/-- Job lifecycle states, mirroring `JobStatus` in `app/jobs.py` (a `str` enum
with values "pending", "running", "completed", "failed", "cancelled"). -/
inductive JobStatus where
  | pending
  | running
  | completed
  | failed
  | cancelled
deriving DecidableEq, Repr

/-- String value of a status, as stored by the `str` enum. -/
def JobStatus.text : JobStatus → String
  | .pending => "pending"
  | .running => "running"
  | .completed => "completed"
  | .failed => "failed"
  | .cancelled => "cancelled"

/-- Membership test `status in [JobStatus.COMPLETED, JobStatus.FAILED,
JobStatus.CANCELLED]` from `JobQueue.update_job`. -/
def JobStatus.isTerminal : JobStatus → Bool
  | .completed => true
  | .failed => true
  | .cancelled => true
  | _ => false

/-- Job kinds, mirroring `JobType` in `app/jobs.py`. -/
inductive JobType where
  | single_compare
  | batch_compare
deriving DecidableEq, Repr

/-- Outcome of one model invocation, mirroring the `ModelResult` pydantic
model in `app/api/compare.py` (latency in milliseconds, kept abstract). -/
structure ModelResult where
  model_name : String
  model_id : String
  response : String
  error : Option String := none
  latency_ms : Option Nat := none
deriving DecidableEq, Repr

/-- Per-model judgement from the synthesis step, mirroring `EvaluationScore`
in `app/api/compare.py`. -/
structure EvaluationScore where
  model_name : String
  score : Int
  reasoning : String
  strengths : List String
  weaknesses : List String
deriving DecidableEq, Repr

/-- One comparison payload: the dict appended per combination (and the body of
a single job result) in `_run_comparison_job` / `_run_batch_comparison_job`. -/
structure CompareEntry where
  video_id : String
  prompt : String
  results : List ModelResult
  evaluation : Option (List EvaluationScore)
  overall_summary : Option String
deriving DecidableEq, Repr

/-- The `result` dict written on completion: either a single comparison or a
batch payload with totals, as assembled in `app/api/compare.py`. -/
inductive ResultPayload where
  | single (entry : CompareEntry)
  | batch (comparisons : List CompareEntry)
      (total_videos total_prompts total_combinations : Nat)
deriving DecidableEq, Repr

/-- The immutable `request_data` dict stored at job creation by the async
endpoints of `app/api/compare.py`. -/
inductive RequestData where
  | single (video_id : String) (prompt : String) (models : List String)
  | batch (video_ids : List String) (prompts : List String) (models : List String)
deriving DecidableEq, Repr

/-- A durable job record, mirroring the `Job` pydantic model in
`app/jobs.py`. -/
structure Job where
  job_id : String
  job_type : JobType
  status : JobStatus
  created_at : Nat
  started_at : Option Nat := none
  completed_at : Option Nat := none
  progress : Int := 0
  progress_message : Option String := none
  request_data : RequestData
  result : Option ResultPayload := none
  error : Option String := none
deriving DecidableEq, Repr

/-- The storage directory of `JobQueue`: one JSON file per job, modelled as a
list of records paired with their file modification time. -/
abbrev Store := List (Job × Nat)

/-- Reading a job file: `JobQueue.get_job` returns the record stored under the
given id, or `None` when no such file exists. -/
def getJob (store : Store) (job_id : String) : Option Job :=
  (store.find? (fun e => e.1.job_id == job_id)).map (fun e => e.1)

/-- Writing a job file (`open(path, "w")` + `json.dump` + fsync): replaces the
record stored under the job's id, or creates it, updating the file's
modification time to `now`. -/
def writeJob (store : Store) (job : Job) (now : Nat) : Store :=
  if store.any (fun e => e.1.job_id == job.job_id) then
    store.map (fun e => if e.1.job_id == job.job_id then (job, now) else e)
  else
    store ++ [(job, now)]

/-- `JobQueue.create_job`: writes a fresh PENDING record (the uuid it
generates is passed in as `job_id`). -/
def create_job (store : Store) (now : Nat) (job_id : String)
    (job_type : JobType) (request_data : RequestData) : Store :=
  writeJob store
    { job_id := job_id
      job_type := job_type
      status := .pending
      created_at := now
      request_data := request_data } now

/-- The optional keyword arguments of one `JobQueue.update_job` call, plus the
wall-clock time `datetime.utcnow()` reads during that call. -/
structure UpdateArgs where
  time : Nat
  status : Option JobStatus := none
  progress : Option Int := none
  progress_message : Option String := none
  result : Option ResultPayload := none
  error : Option String := none
deriving Repr

/-- The status branch of `JobQueue.update_job`: set the new status; on RUNNING
with unset `started_at`, stamp `started_at`; else, on a terminal status, stamp
`completed_at` (note: with no check that `completed_at` is still unset). -/
def applyStatusUpdate (job : Job) (s : JobStatus) (now : Nat) : Job :=
  let j := { job with status := s }
  if s = .running ∧ j.started_at = none then
    { j with started_at := some now }
  else if s.isTerminal then
    { j with completed_at := some now }
  else
    j

/-- The in-memory mutation performed by `JobQueue.update_job` (lines 105-122
of `app/jobs.py`): each provided field overwrites the stored one. -/
def updateJobPure (job : Job) (u : UpdateArgs) : Job :=
  let job := match u.status with
    | some s => applyStatusUpdate job s u.time
    | none => job
  let job := match u.progress with
    | some p => { job with progress := p }
    | none => job
  let job := match u.progress_message with
    | some m => { job with progress_message := some m }
    | none => job
  let job := match u.result with
    | some r => { job with result := some r }
    | none => job
  match u.error with
  | some e => { job with error := some e }
  | none => job

/-- `JobQueue.update_job`: read the record; silently return when it does not
exist; otherwise mutate it and write it back. -/
def update_job (store : Store) (job_id : String) (u : UpdateArgs) : Store :=
  match getJob store job_id with
  | none => store
  | some job => writeJob store (updateJobPure job u) u.time

/-- `JobQueue.list_jobs`: all records sorted by file modification time, most
recent first (Python `sorted` is stable, as is `mergeSort`), truncated to
`limit`. -/
def list_jobs (store : Store) (limit : Nat) : List Job :=
  ((store.mergeSort (fun a b => b.2 ≤ a.2)).take limit).map (fun e => e.1)

/-- `JobQueue.delete_job`: unlink the record file if it exists. -/
def delete_job (store : Store) (job_id : String) : Store :=
  store.filter (fun e => e.1.job_id != job_id)

/-- `JobQueue.cancel_job`: cancel the in-memory asyncio task if registered
(no effect on the persisted store) and force the stored status to CANCELLED
via `update_job`. -/
def queue_cancel_job (store : Store) (now : Nat) (job_id : String) : Store :=
  update_job store job_id { time := now, status := some .cancelled }

/-- Seconds in one day: `timedelta(days=...)` granularity of the cleanup
cutoff. -/
def daySeconds : Nat := 86400

/-- Loop body of `JobQueue.cleanup_old_jobs`: delete the job when its
creation time precedes the cutoff. -/
def cleanupStep (cutoff : Nat) (s : Store) (job : Job) : Store :=
  if job.created_at < cutoff then delete_job s job.job_id else s

/-- `JobQueue.cleanup_old_jobs`: list at most 1000 jobs (most recently
modified first) and delete each listed job created before `now` minus `days`
days. -/
def cleanup_old_jobs (store : Store) (now : Nat) (days : Nat) : Store :=
  (list_jobs store 1000).foldl (cleanupStep (now - days * daySeconds)) store

/-- A request record for tests: a minimal single-compare payload. -/
def demoRequest : RequestData := .single "vid" "prompt" ["gemini-2.5-pro"]

/-- A fresh PENDING job as `create_job` writes it. -/
def freshJob (job_id : String) (created : Nat) (rd : RequestData) : Job :=
  { job_id := job_id
    job_type := .single_compare
    status := .pending
    created_at := created
    request_data := rd }

/-- C10: `update_job` on a job id with no persisted record returns without
raising, creates no record, and leaves every existing record unchanged — the
store is returned exactly as it was, for every combination of update
arguments. -/
theorem update_job_unknown_id_noop (store : Store) (job_id : String)
    (u : UpdateArgs) (h : getJob store job_id = none) :
    update_job store job_id u = store := by
  unfold update_job
  rw [h]

/-- Witness for C10: a concrete store with one job, updated under a different
id with every field provided, is unchanged. -/
theorem update_job_unknown_id_noop_witness :
    getJob [(freshJob "a" 0 demoRequest, 0)] "b" = none ∧
    update_job [(freshJob "a" 0 demoRequest, 0)] "b"
      { time := 5, status := some .completed, progress := some 50,
        progress_message := some "m", result := none, error := some "e" } =
      [(freshJob "a" 0 demoRequest, 0)] := by
  refine ⟨by decide, update_job_unknown_id_noop _ _ _ (by decide)⟩

/-- Applying a sequence of `update_job` calls to one in-memory record, in
order (each call of `JobQueue.update_job` reads the record back before
mutating it, so on a single job the store round-trip composes to this fold). -/
def applyUpdates (job : Job) (us : List UpdateArgs) : Job :=
  us.foldl updateJobPure job

/-- An update call that carries `status=RUNNING`. -/
def carriesRunning (u : UpdateArgs) : Bool :=
  u.status == some .running

/-- An update call that carries a terminal status. -/
def carriesTerminal (u : UpdateArgs) : Bool :=
  match u.status with
  | some s => s.isTerminal
  | none => false

/-- Time of the first update in the sequence that carries RUNNING. -/
def firstRunningTime (us : List UpdateArgs) : Option Nat :=
  (us.find? carriesRunning).map (fun u => u.time)

/-- Time of the last update in the sequence that carries a terminal status. -/
def lastTerminalTime (us : List UpdateArgs) : Option Nat :=
  (us.reverse.find? carriesTerminal).map (fun u => u.time)

theorem applyStatusUpdate_started_at (j : Job) (s : JobStatus) (now : Nat) :
    (applyStatusUpdate j s now).started_at =
      if s = .running ∧ j.started_at = none then some now else j.started_at := by
  unfold applyStatusUpdate
  by_cases h : s = .running ∧ j.started_at = none
  · simp [h]
  · simp only [h, if_false, if_neg h]
    split <;> rfl

theorem applyStatusUpdate_completed_at (j : Job) (s : JobStatus) (now : Nat) :
    (applyStatusUpdate j s now).completed_at =
      if s.isTerminal then some now else j.completed_at := by
  unfold applyStatusUpdate
  by_cases h : s = .running ∧ j.started_at = none
  · have hs : s = .running := h.1
    simp [h, hs, JobStatus.isTerminal]
  · simp only [if_neg h]
    split <;> rfl

theorem updateJobPure_started_at (j : Job) (u : UpdateArgs) :
    (updateJobPure j u).started_at =
      if carriesRunning u ∧ j.started_at = none then some u.time
      else j.started_at := by
  rcases u with ⟨t, st, pr, pm, rs, er⟩
  have hred : (updateJobPure j ⟨t, st, pr, pm, rs, er⟩).started_at =
      (match st with
        | some s => applyStatusUpdate j s t
        | none => j).started_at := by
    cases pr <;> cases pm <;> cases rs <;> cases er <;> rfl
  rw [hred]
  cases st with
  | none => simp [carriesRunning]
  | some s =>
    rw [applyStatusUpdate_started_at]
    by_cases hs : s = JobStatus.running
    · simp [carriesRunning, hs]
    · simp [carriesRunning, hs]

theorem updateJobPure_completed_at (j : Job) (u : UpdateArgs) :
    (updateJobPure j u).completed_at =
      if carriesTerminal u then some u.time else j.completed_at := by
  rcases u with ⟨t, st, pr, pm, rs, er⟩
  have hred : (updateJobPure j ⟨t, st, pr, pm, rs, er⟩).completed_at =
      (match st with
        | some s => applyStatusUpdate j s t
        | none => j).completed_at := by
    cases pr <;> cases pm <;> cases rs <;> cases er <;> rfl
  rw [hred]
  cases st with
  | none => simp [carriesTerminal]
  | some s =>
    rw [applyStatusUpdate_completed_at]
    simp [carriesTerminal]

theorem applyUpdates_started_at (us : List UpdateArgs) (j : Job) :
    (applyUpdates j us).started_at =
      match j.started_at with
      | some t => some t
      | none => firstRunningTime us := by
  induction us generalizing j with
  | nil =>
    cases hj : j.started_at <;> simp [applyUpdates, firstRunningTime, hj]
  | cons u us ih =>
    have step : applyUpdates j (u :: us) = applyUpdates (updateJobPure j u) us := rfl
    rw [step, ih]
    rw [updateJobPure_started_at]
    cases hj : j.started_at with
    | some t =>
      simp [hj]
    | none =>
      cases hr : carriesRunning u with
      | true =>
        simp [hr, firstRunningTime, List.find?_cons, hr]
      | false =>
        simp [hr, firstRunningTime, List.find?_cons]

theorem applyUpdates_completed_at (us : List UpdateArgs) (j : Job) :
    (applyUpdates j us).completed_at =
      match lastTerminalTime us with
      | some t => some t
      | none => j.completed_at := by
  induction us generalizing j with
  | nil =>
    simp [applyUpdates, lastTerminalTime]
  | cons u us ih =>
    have step : applyUpdates j (u :: us) = applyUpdates (updateJobPure j u) us := rfl
    rw [step, ih]
    have hrev : (u :: us).reverse = us.reverse ++ [u] := by simp
    have hfind : lastTerminalTime (u :: us) =
        match us.reverse.find? carriesTerminal with
        | some v => some v.time
        | none => if carriesTerminal u then some u.time else none := by
      unfold lastTerminalTime
      rw [hrev, List.find?_append]
      cases hx : us.reverse.find? carriesTerminal with
      | some v => simp [hx]
      | none =>
        simp [hx, List.find?_cons]
        cases ht : carriesTerminal u <;> simp [ht]
    rw [updateJobPure_completed_at, hfind]
    unfold lastTerminalTime
    cases hx : us.reverse.find? carriesTerminal with
    | some v => simp [hx]
    | none =>
      cases ht : carriesTerminal u <;> simp [hx, ht]

/-- A one-job store for exercising repeated terminal updates. -/
def c3Store0 : Store := [(freshJob "j" 0 demoRequest, 0)]

/-- The store after a first `update_job` carrying COMPLETED at time 1. -/
def c3Store1 : Store :=
  update_job c3Store0 "j" { time := 1, status := some JobStatus.completed }

/-- The store after a second `update_job` carrying CANCELLED at time 2. -/
def c3Store2 : Store :=
  update_job c3Store1 "j" { time := 2, status := some JobStatus.cancelled }

/-- C3 counterexample: `completed_at` is not written exactly once — a later
`update_job` call carrying a terminal status overwrites the already-set
`completed_at` (the code re-stamps it on every terminal update). -/
theorem completed_at_rewritten_counterexample :
    (getJob c3Store1 "j").map Job.completed_at = some (some 1) ∧
    (getJob c3Store2 "j").map Job.completed_at = some (some 2) ∧
    (getJob c3Store2 "j").map Job.completed_at ≠ some (some 1) := by
  decide

/-- C3 amended: over any sequence of `update_job` calls on a job whose
timestamps start unset, `started_at` is written exactly once, at the first
update carrying RUNNING; `completed_at` holds the time of the *last* update
carrying a terminal status (each terminal update overwrites it); and
`completed_at` is set iff some update carried a terminal status. -/
theorem update_job_timestamp_discipline (j : Job) (us : List UpdateArgs)
    (hs : j.started_at = none) (hc : j.completed_at = none) :
    (applyUpdates j us).started_at = firstRunningTime us ∧
    (applyUpdates j us).completed_at = lastTerminalTime us ∧
    ((applyUpdates j us).completed_at ≠ none ↔ ∃ u ∈ us, carriesTerminal u) := by
  have h1 : (applyUpdates j us).started_at = firstRunningTime us := by
    rw [applyUpdates_started_at, hs]
  have h2 : (applyUpdates j us).completed_at = lastTerminalTime us := by
    rw [applyUpdates_completed_at]
    cases hx : lastTerminalTime us <;> simp [hx, hc]
  refine ⟨h1, h2, ?_⟩
  rw [h2]
  unfold lastTerminalTime
  cases hx : us.reverse.find? carriesTerminal with
  | some v =>
    constructor
    · intro _
      exact ⟨v, List.mem_reverse.mp (List.mem_of_find?_eq_some hx),
        List.find?_some hx⟩
    · intro _
      simp
  | none =>
    rw [List.find?_eq_none] at hx
    constructor
    · intro h
      exact absurd rfl h
    · rintro ⟨u, hu, hcu⟩
      exact fun _ => absurd hcu (hx u (List.mem_reverse.mpr hu))

/-- A concrete update sequence: RUNNING at 1, COMPLETED at 2, CANCELLED at 3. -/
def c3Updates : List UpdateArgs :=
  [{ time := 1, status := some JobStatus.running },
   { time := 2, status := some JobStatus.completed },
   { time := 3, status := some JobStatus.cancelled }]

/-- Witness for the amended C3 theorem at a concrete fresh job and update
sequence. -/
theorem update_job_timestamp_discipline_witness :
    (freshJob "j" 0 demoRequest).started_at = none ∧
    (freshJob "j" 0 demoRequest).completed_at = none ∧
    ((applyUpdates (freshJob "j" 0 demoRequest) c3Updates).started_at =
        firstRunningTime c3Updates ∧
      (applyUpdates (freshJob "j" 0 demoRequest) c3Updates).completed_at =
        lastTerminalTime c3Updates ∧
      ((applyUpdates (freshJob "j" 0 demoRequest) c3Updates).completed_at ≠ none ↔
        ∃ u ∈ c3Updates, carriesTerminal u)) :=
  ⟨rfl, rfl, update_job_timestamp_discipline (freshJob "j" 0 demoRequest) c3Updates rfl rfl⟩

theorem mem_delete_job (s : Store) (id : String) (e : Job × Nat) :
    e ∈ delete_job s id ↔ e ∈ s ∧ e.1.job_id ≠ id := by
  unfold delete_job
  rw [List.mem_filter]
  constructor
  · rintro ⟨h1, h2⟩
    exact ⟨h1, bne_iff_ne.mp h2⟩
  · rintro ⟨h1, h2⟩
    exact ⟨h1, bne_iff_ne.mpr h2⟩

theorem mem_foldl_cleanupStep (c : Nat) :
    ∀ (L : List Job) (s : Store) (e : Job × Nat),
      e ∈ L.foldl (cleanupStep c) s ↔
        e ∈ s ∧ ∀ j ∈ L, j.created_at < c → e.1.job_id ≠ j.job_id := by
  intro L
  induction L with
  | nil => intro s e; simp
  | cons j L ih =>
    intro s e
    have step : (j :: L).foldl (cleanupStep c) s = L.foldl (cleanupStep c) (cleanupStep c s j) := rfl
    rw [step, ih]
    unfold cleanupStep
    by_cases hj : j.created_at < c
    · rw [if_pos hj, mem_delete_job]
      simp only [List.forall_mem_cons]
      constructor
      · rintro ⟨⟨h1, h2⟩, h3⟩
        exact ⟨h1, fun _ => h2, h3⟩
      · rintro ⟨h1, h2, h3⟩
        exact ⟨⟨h1, h2 hj⟩, h3⟩
    · rw [if_neg hj]
      simp only [List.forall_mem_cons]
      constructor
      · rintro ⟨h1, h2⟩
        exact ⟨h1, fun h => absurd h hj, h2⟩
      · rintro ⟨h1, _, h2⟩
        exact ⟨h1, h2⟩

theorem foldl_cleanupStep_sublist (c : Nat) :
    ∀ (L : List Job) (s : Store), List.Sublist (L.foldl (cleanupStep c) s) s := by
  intro L
  induction L with
  | nil => intro s; exact List.Sublist.refl s
  | cons j L ih =>
    intro s
    have hstep : List.Sublist (cleanupStep c s j) s := by
      unfold cleanupStep
      split
      · exact List.filter_sublist s
      · exact List.Sublist.refl s
    exact (ih (cleanupStep c s j)).trans hstep

theorem delete_job_length (id : String) :
    ∀ s : Store, (s.map (fun e => e.1.job_id)).Nodup →
      s.length ≤ (delete_job s id).length + 1 := by
  intro s
  induction s with
  | nil => intro _; simp [delete_job]
  | cons e s ih =>
    intro hnd
    rw [List.map_cons, List.nodup_cons] at hnd
    unfold delete_job at ih ⊢
    rw [List.filter_cons]
    by_cases he : e.1.job_id = id
    · have hbne : (e.1.job_id != id) = false := by
        simp [he]
      rw [hbne]
      simp only [Bool.false_eq_true, if_false]
      have hall : s.filter (fun x => x.1.job_id != id) = s := by
        rw [List.filter_eq_self]
        intro a ha
        refine bne_iff_ne.mpr ?_
        intro hax
        exact hnd.1 (by
          rw [← he] at hax
          exact hax ▸ List.mem_map_of_mem (fun x => x.1.job_id) ha)
      rw [hall]
      simp
    · have hbne : (e.1.job_id != id) = true := bne_iff_ne.mpr he
      rw [hbne]
      simp only [if_true]
      have := ih hnd.2
      simpa using Nat.succ_le_succ this

theorem foldl_cleanupStep_length (c : Nat) :
    ∀ (L : List Job) (s : Store), (s.map (fun e => e.1.job_id)).Nodup →
      s.length ≤ (L.foldl (cleanupStep c) s).length + L.length := by
  intro L
  induction L with
  | nil => intro s _; simp
  | cons j L ih =>
    intro s hnd
    have step : (j :: L).foldl (cleanupStep c) s = L.foldl (cleanupStep c) (cleanupStep c s j) := rfl
    rw [step]
    have hsub : List.Sublist (cleanupStep c s j) s := by
      unfold cleanupStep
      split
      · exact List.filter_sublist s
      · exact List.Sublist.refl s
    have hnd' : ((cleanupStep c s j).map (fun e => e.1.job_id)).Nodup :=
      hnd.sublist (hsub.map (fun e => e.1.job_id))
    have hstep : s.length ≤ (cleanupStep c s j).length + 1 := by
      unfold cleanupStep
      split
      · exact delete_job_length j.job_id s hnd
      · omega
    have := ih (cleanupStep c s j) hnd'
    simp only [List.length_cons]
    omega

theorem list_jobs_length_le (store : Store) (limit : Nat) :
    (list_jobs store limit).length ≤ limit := by
  unfold list_jobs
  rw [List.length_map]
  exact List.length_take_le limit _

theorem mem_store_of_mem_list_jobs (store : Store) (limit : Nat) (j : Job)
    (h : j ∈ list_jobs store limit) : ∃ m, (j, m) ∈ store := by
  unfold list_jobs at h
  obtain ⟨e, he, rfl⟩ := List.mem_map.mp h
  have : e ∈ store.mergeSort (fun a b => b.2 ≤ a.2) := List.mem_of_mem_take he
  have hmem : e ∈ store := (List.mergeSort_perm store _).subset this
  exact ⟨e.2, hmem⟩

theorem mem_list_jobs_of_small (store : Store) (limit : Nat) (e : Job × Nat)
    (hlen : store.length ≤ limit) (h : e ∈ store) :
    e.1 ∈ list_jobs store limit := by
  unfold list_jobs
  have hsorted : e ∈ store.mergeSort (fun a b => b.2 ≤ a.2) :=
    ((List.mergeSort_perm store _).mem_iff).mpr h
  have hfull : (store.mergeSort (fun a b => b.2 ≤ a.2)).take limit =
      store.mergeSort (fun a b => b.2 ≤ a.2) := by
    apply List.take_of_length_le
    rw [List.length_mergeSort]
    exact hlen
  rw [hfull]
  exact List.mem_map_of_mem (fun x => x.1) hsorted

/-- C2 amended: `cleanup_old_jobs` only ever deletes existing records; with
distinct job ids (as uuid-keyed files guarantee) it deletes no job created at
or after the cutoff; and when the store holds at most 1000 records it deletes
every job created before the cutoff.  (With more than 1000 records, stale jobs
outside the 1000 most recently modified survive; see the counterexample.) -/
theorem cleanup_old_jobs_behavior (store : Store) (now days : Nat)
    (hnodup : (store.map (fun e => e.1.job_id)).Nodup) :
    (∀ e ∈ cleanup_old_jobs store now days, e ∈ store) ∧
    (∀ e ∈ store, ¬ e.1.created_at < now - days * daySeconds →
      e ∈ cleanup_old_jobs store now days) ∧
    (store.length ≤ 1000 →
      ∀ e ∈ store, e.1.created_at < now - days * daySeconds →
        e ∉ cleanup_old_jobs store now days) := by
  refine ⟨?_, ?_, ?_⟩
  · intro e he
    exact ((mem_foldl_cleanupStep _ _ _ _).mp he).1
  · intro e he hfresh
    unfold cleanup_old_jobs
    rw [mem_foldl_cleanupStep]
    refine ⟨he, ?_⟩
    intro j hj hstale heq
    obtain ⟨m, hjm⟩ := mem_store_of_mem_list_jobs store 1000 j hj
    have : (j, m) = e := List.inj_on_of_nodup_map hnodup hjm he heq.symm
    rw [← this] at hfresh
    exact hfresh hstale
  · intro hlen e he hstale hmem
    have hj : e.1 ∈ list_jobs store 1000 := mem_list_jobs_of_small store 1000 e hlen he
    have := ((mem_foldl_cleanupStep _ _ _ _).mp hmem).2 e.1 hj hstale
    exact this rfl

/-- Two concrete jobs: "a" created at 0 (stale) and "b" created at 100
(fresh), cutoff 50. -/
def c2Store : Store := [(freshJob "a" 0 demoRequest, 3), (freshJob "b" 100 demoRequest, 7)]

/-- Witness for the amended C2 theorem at a concrete two-job store. -/
theorem cleanup_old_jobs_behavior_witness :
    (c2Store.map (fun e => e.1.job_id)).Nodup ∧
    ((∀ e ∈ cleanup_old_jobs c2Store (daySeconds + 50) 1, e ∈ c2Store) ∧
      (∀ e ∈ c2Store, ¬ e.1.created_at < (daySeconds + 50) - 1 * daySeconds →
        e ∈ cleanup_old_jobs c2Store (daySeconds + 50) 1) ∧
      (c2Store.length ≤ 1000 →
        ∀ e ∈ c2Store, e.1.created_at < (daySeconds + 50) - 1 * daySeconds →
          e ∉ cleanup_old_jobs c2Store (daySeconds + 50) 1)) :=
  ⟨by decide, cleanup_old_jobs_behavior c2Store (daySeconds + 50) 1 (by decide)⟩

/-- Distinct string ids without string-decoding: `idOf i` has length `i`. -/
def idOf (i : Nat) : String := String.mk (List.replicate i 'a')

theorem idOf_injective : Function.Injective idOf := by
  intro i j h
  have := congrArg String.length h
  simpa [idOf, String.length] using this

/-- A store of 1001 records, all created at time 0, with distinct ids and
distinct modification times. -/
def bigStore : Store :=
  (List.range 1001).map (fun i => (freshJob (idOf i) 0 demoRequest, i))

theorem bigStore_length : bigStore.length = 1001 := by
  simp [bigStore]

theorem bigStore_nodup : (bigStore.map (fun e => e.1.job_id)).Nodup := by
  unfold bigStore
  rw [List.map_map]
  have : ((fun e : Job × Nat => e.1.job_id) ∘
      fun i => (freshJob (idOf i) 0 demoRequest, i)) = idOf := rfl
  rw [this]
  exact List.Nodup.map idOf_injective (List.nodup_range 1001)

theorem bigStore_created (e : Job × Nat) (he : e ∈ bigStore) : e.1.created_at = 0 := by
  unfold bigStore at he
  obtain ⟨i, _, rfl⟩ := List.mem_map.mp he
  rfl

/-- C2 counterexample: with 1001 stored jobs, all of them a full day older
than the cutoff, `cleanup_old_jobs` fails to delete at least one of them — the
claim that every stale job is deleted "including when the store holds more
than 1000 job records" is false (the code only examines
`list_jobs(limit=1000)`). -/
theorem cleanup_old_jobs_misses_beyond_limit :
    ∃ e ∈ cleanup_old_jobs bigStore (2 * daySeconds) 1,
      e.1.created_at < 2 * daySeconds - 1 * daySeconds := by
  have hlen : 1 ≤ (cleanup_old_jobs bigStore (2 * daySeconds) 1).length := by
    have hfold := foldl_cleanupStep_length (2 * daySeconds - 1 * daySeconds)
      (list_jobs bigStore 1000) bigStore bigStore_nodup
    have hL : (list_jobs bigStore 1000).length ≤ 1000 := list_jobs_length_le bigStore 1000
    have hbig : bigStore.length = 1001 := bigStore_length
    have heq : cleanup_old_jobs bigStore (2 * daySeconds) 1 =
        (list_jobs bigStore 1000).foldl
          (cleanupStep (2 * daySeconds - 1 * daySeconds)) bigStore := rfl
    rw [heq]
    omega
  have hpos : 0 < (cleanup_old_jobs bigStore (2 * daySeconds) 1).length := by omega
  obtain ⟨e, he⟩ := List.exists_mem_of_length_pos hpos
  refine ⟨e, he, ?_⟩
  have hsub : List.Sublist (cleanup_old_jobs bigStore (2 * daySeconds) 1) bigStore :=
    foldl_cleanupStep_sublist _ _ _
  have hmem : e ∈ bigStore := hsub.subset he
  rw [bigStore_created e hmem]
  norm_num [daySeconds]

theorem getJob_some_id (store : Store) (id : String) (job : Job)
    (h : getJob store id = some job) : job.job_id = id := by
  unfold getJob at h
  cases hf : store.find? (fun e => e.1.job_id == id) with
  | none => rw [hf] at h; cases h
  | some e =>
    rw [hf] at h
    have he : e.1 = job := by
      simpa using h
    have := List.find?_some hf
    rw [← he]
    exact eq_of_beq this

theorem applyStatusUpdate_job_id (j : Job) (s : JobStatus) (now : Nat) :
    (applyStatusUpdate j s now).job_id = j.job_id := by
  unfold applyStatusUpdate
  by_cases h : s = .running ∧ j.started_at = none
  · simp [h]
  · simp only [h, if_false, if_neg h]
    split <;> rfl

theorem updateJobPure_job_id (j : Job) (u : UpdateArgs) :
    (updateJobPure j u).job_id = j.job_id := by
  rcases u with ⟨t, st, pr, pm, rs, er⟩
  have hred : (updateJobPure j ⟨t, st, pr, pm, rs, er⟩).job_id =
      (match st with
        | some s => applyStatusUpdate j s t
        | none => j).job_id := by
    cases pr <;> cases pm <;> cases rs <;> cases er <;> rfl
  rw [hred]
  cases st with
  | none => rfl
  | some s => exact applyStatusUpdate_job_id j s t

theorem applyStatusUpdate_status (j : Job) (s : JobStatus) (now : Nat) :
    (applyStatusUpdate j s now).status = s := by
  unfold applyStatusUpdate
  by_cases h : s = .running ∧ j.started_at = none
  · simp [h]
  · simp only [h, if_false, if_neg h]
    split <;> rfl

theorem updateJobPure_status (j : Job) (u : UpdateArgs) :
    (updateJobPure j u).status =
      match u.status with
      | some s => s
      | none => j.status := by
  rcases u with ⟨t, st, pr, pm, rs, er⟩
  have hred : (updateJobPure j ⟨t, st, pr, pm, rs, er⟩).status =
      (match st with
        | some s => applyStatusUpdate j s t
        | none => j).status := by
    cases pr <;> cases pm <;> cases rs <;> cases er <;> rfl
  rw [hred]
  cases st with
  | none => rfl
  | some s => exact applyStatusUpdate_status j s t

theorem find_map_writeJob (j : Job) (t : Nat) :
    ∀ s : Store, s.any (fun e => e.1.job_id == j.job_id) = true →
      (s.map (fun e => if e.1.job_id == j.job_id then (j, t) else e)).find?
          (fun e => e.1.job_id == j.job_id) = some (j, t) := by
  intro s
  induction s with
  | nil => intro h; cases h
  | cons e s ih =>
    intro h
    rw [List.any_cons] at h
    by_cases he : (e.1.job_id == j.job_id) = true
    · rw [List.map_cons, if_pos he]
      rw [List.find?_cons_of_pos]
      simp
    · rw [List.map_cons, if_neg he]
      rw [List.find?_cons_of_neg _ (by simpa using he)]
      apply ih
      rcases Bool.or_eq_true_iff.mp h with h1 | h1
      · exact absurd h1 he
      · exact h1

theorem getJob_writeJob (s : Store) (j : Job) (t : Nat) :
    getJob (writeJob s j t) j.job_id = some j := by
  unfold writeJob
  by_cases h : s.any (fun e => e.1.job_id == j.job_id) = true
  · rw [if_pos h]
    unfold getJob
    rw [find_map_writeJob j t s h]
    rfl
  · rw [if_neg h]
    unfold getJob
    rw [List.find?_append]
    have hnone : s.find? (fun e => e.1.job_id == j.job_id) = none := by
      rw [List.find?_eq_none]
      intro x hx hbx
      exact h (List.any_eq_true.mpr ⟨x, hx, hbx⟩)
    rw [hnone]
    simp

theorem getJob_update_job (store : Store) (job_id : String) (u : UpdateArgs)
    (job : Job) (hget : getJob store job_id = some job) :
    getJob (update_job store job_id u) job_id = some (updateJobPure job u) := by
  have hid : job.job_id = job_id := getJob_some_id store job_id job hget
  unfold update_job
  rw [hget]
  have hid2 : (updateJobPure job u).job_id = job_id := by
    rw [updateJobPure_job_id, hid]
  rw [← hid2]
  exact getJob_writeJob store (updateJobPure job u) u.time

/-- The `cancel_job` endpoint of `app/api/jobs.py` (lines 27-41): 404 when
the job is missing, 400 ("Cannot cancel job with status: ...") when its status
is not PENDING or RUNNING — both raised before any store write — otherwise
`JobQueue.cancel_job`.  The pair carries the HTTP outcome and the store after
the request. -/
def api_cancel_job (store : Store) (now : Nat) (job_id : String) :
    Except String Unit × Store :=
  match getJob store job_id with
  | none => (.error "Job not found", store)
  | some job =>
    if job.status ∉ [JobStatus.pending, JobStatus.running] then
      (.error ("Cannot cancel job with status: " ++ job.status.text), store)
    else
      (.ok (), queue_cancel_job store now job_id)

/-- C8: cancelling transitions the job to CANCELLED exactly when its current
status is PENDING or RUNNING; cancelling a job in COMPLETED, FAILED or
CANCELLED is rejected with an invalid-transition error and leaves the store
(hence the stored job) unchanged; after a successful cancel the stored status
is CANCELLED. -/
theorem api_cancel_job_spec (store : Store) (now : Nat) (job_id : String)
    (job : Job) (hget : getJob store job_id = some job) :
    ((job.status = .pending ∨ job.status = .running) →
      (api_cancel_job store now job_id).1 = .ok () ∧
      ∃ j', getJob (api_cancel_job store now job_id).2 job_id = some j' ∧
        j'.status = .cancelled) ∧
    (job.status.isTerminal →
      (api_cancel_job store now job_id).1 =
        .error ("Cannot cancel job with status: " ++ job.status.text) ∧
      (api_cancel_job store now job_id).2 = store) := by
  have hred : api_cancel_job store now job_id =
      if job.status ∉ [JobStatus.pending, JobStatus.running] then
        (Except.error ("Cannot cancel job with status: " ++ job.status.text), store)
      else (Except.ok (), queue_cancel_job store now job_id) := by
    unfold api_cancel_job
    rw [hget]
  constructor
  · intro hok
    have hmem : job.status ∈ [JobStatus.pending, JobStatus.running] := by
      rcases hok with h | h <;> simp [h]
    rw [hred, if_neg (not_not_intro hmem)]
    refine ⟨rfl, ?_⟩
    unfold queue_cancel_job
    refine ⟨updateJobPure job { time := now, status := some .cancelled }, ?_, ?_⟩
    · exact getJob_update_job store job_id _ job hget
    · rw [updateJobPure_status]
  · intro hterm
    have hnmem : job.status ∉ [JobStatus.pending, JobStatus.running] := by
      intro hmem
      rw [List.mem_cons, List.mem_singleton] at hmem
      rcases hmem with h | h <;> rw [h] at hterm <;> exact absurd hterm (by decide)
    rw [hred, if_pos hnmem]
    exact ⟨rfl, rfl⟩

/-- Witness for C8: a concrete PENDING job is cancelled (stored status becomes
CANCELLED), and a concrete COMPLETED job is rejected with the store unchanged. -/
theorem api_cancel_job_spec_witness :
    (getJob c3Store0 "j" = some (freshJob "j" 0 demoRequest) ∧
      ((freshJob "j" 0 demoRequest).status = .pending ∨
        (freshJob "j" 0 demoRequest).status = .running) ∧
      (api_cancel_job c3Store0 9 "j").1 = .ok () ∧
      ∃ j', getJob (api_cancel_job c3Store0 9 "j").2 "j" = some j' ∧
        j'.status = .cancelled) ∧
    (∃ jc, getJob c3Store1 "j" = some jc ∧ jc.status.isTerminal ∧
      (api_cancel_job c3Store1 9 "j").1 =
        .error ("Cannot cancel job with status: " ++ jc.status.text) ∧
      (api_cancel_job c3Store1 9 "j").2 = c3Store1) := by
  constructor
  · have h := api_cancel_job_spec c3Store0 9 "j" (freshJob "j" 0 demoRequest) (by decide)
    exact ⟨by decide, Or.inl rfl, h.1 (Or.inl rfl)⟩
  · have hget : getJob c3Store1 "j" =
        some (updateJobPure (freshJob "j" 0 demoRequest)
          { time := 1, status := some JobStatus.completed }) := by decide
    have h := api_cancel_job_spec c3Store1 9 "j" _ hget
    refine ⟨_, hget, by decide, h.2 (by decide)⟩

/-- The names of the `MODELS` dict in `app/api/compare.py` (each key maps to
an identical model id string). -/
def MODELS_keys : List String :=
  ["gemini-3-pro-preview", "gemini-3-flash-preview", "gemini-2.5-flash", "gemini-2.5-pro"]

/-- Lookup `MODELS[name]`: the dict maps every known name to itself. -/
def MODELS_find (name : String) : Option String :=
  if MODELS_keys.contains name then some name else none

/-- The `CompareRequest` pydantic model of `app/api/compare.py`. -/
structure CompareRequest where
  video_id : String
  prompt : String
  models : Option (List String) := none

/-- The `BatchCompareRequest` pydantic model of `app/api/compare.py`. -/
structure BatchCompareRequest where
  video_ids : List String
  prompts : List String
  models : Option (List String) := none

/-- `request.models if request.models else list(MODELS.keys())`: `None` and
the empty list are both falsy, so either falls back to all models. -/
def selectedModels (models : Option (List String)) : List String :=
  match models with
  | some (m :: ms) => m :: ms
  | _ => MODELS_keys

/-- The `compare_video_understanding_async` endpoint (`app/api/compare.py`
lines 679-727): validate the video, then every selected model, and only then
create the PENDING job and register the background task (the task registry is
in-memory and does not touch the store).  The uuid the queue would generate is
passed in as `newId`; video existence is the external collaborator
`get_video_path`/`os.path.exists`. -/
def compare_async (store : Store) (now : Nat) (newId : String)
    (videoExists : String → Bool) (req : CompareRequest) :
    Except String Unit × Store :=
  if ¬ videoExists req.video_id then
    (.error "Video not found", store)
  else
    match (selectedModels req.models).find? (fun m => !(MODELS_keys.contains m)) with
    | some m => (.error ("Unknown model: " ++ m), store)
    | none =>
      (.ok (), create_job store now newId JobType.single_compare
        (.single req.video_id req.prompt (selectedModels req.models)))

/-- The `batch_compare_video_understanding_async` endpoint
(`app/api/compare.py` lines 730-779): validate every video, then every
selected model, and only then create the PENDING batch job. -/
def batch_compare_async (store : Store) (now : Nat) (newId : String)
    (videoExists : String → Bool) (req : BatchCompareRequest) :
    Except String Unit × Store :=
  match req.video_ids.find? (fun v => !(videoExists v)) with
  | some v => (.error ("Video not found: " ++ v), store)
  | none =>
    match (selectedModels req.models).find? (fun m => !(MODELS_keys.contains m)) with
    | some m => (.error ("Unknown model: " ++ m), store)
    | none =>
      (.ok (), create_job store now newId JobType.batch_compare
        (.batch req.video_ids req.prompts (selectedModels req.models)))

/-- C7: any async job-creation request naming an unknown video id or an
unknown model id fails with a validation error before any background work, and
the store of persisted jobs is returned unchanged — no job record is created.
Covers both the single and the batch endpoint. -/
theorem async_creation_validation (store : Store) (now : Nat) (newId : String)
    (videoExists : String → Bool) :
    (∀ req : CompareRequest,
      videoExists req.video_id = false ∨
        (∃ m ∈ selectedModels req.models, MODELS_keys.contains m = false) →
      (∃ e, (compare_async store now newId videoExists req).1 = .error e) ∧
        (compare_async store now newId videoExists req).2 = store) ∧
    (∀ req : BatchCompareRequest,
      (∃ v ∈ req.video_ids, videoExists v = false) ∨
        (∃ m ∈ selectedModels req.models, MODELS_keys.contains m = false) →
      (∃ e, (batch_compare_async store now newId videoExists req).1 = .error e) ∧
        (batch_compare_async store now newId videoExists req).2 = store) := by
  constructor
  · intro req hbad
    unfold compare_async
    by_cases hv : videoExists req.video_id = true
    · have hmdl : ∃ m ∈ selectedModels req.models, MODELS_keys.contains m = false := by
        rcases hbad with h | h
        · rw [hv] at h; cases h
        · exact h
      have hfind : ∃ x, (selectedModels req.models).find?
          (fun m => !(MODELS_keys.contains m)) = some x := by
        rw [← Option.isSome_iff_exists, List.find?_isSome]
        obtain ⟨m, hm, hmf⟩ := hmdl
        refine ⟨m, hm, ?_⟩
        simp only [Bool.not_eq_true']
        exact hmf
      obtain ⟨x, hx⟩ := hfind
      rw [if_neg (by simp [hv])]
      rw [hx]
      exact ⟨⟨"Unknown model: " ++ x, rfl⟩, rfl⟩
    · rw [if_pos (by simpa using hv)]
      exact ⟨⟨"Video not found", rfl⟩, rfl⟩
  · intro req hbad
    unfold batch_compare_async
    by_cases hv : ∃ x, req.video_ids.find? (fun v => !(videoExists v)) = some x
    · obtain ⟨x, hx⟩ := hv
      rw [hx]
      exact ⟨⟨"Video not found: " ++ x, rfl⟩, rfl⟩
    · have hvn : req.video_ids.find? (fun v => !(videoExists v)) = none := by
        cases h : req.video_ids.find? (fun v => !(videoExists v)) with
        | none => rfl
        | some x => exact absurd ⟨x, h⟩ hv
      have hmdl : ∃ m ∈ selectedModels req.models, MODELS_keys.contains m = false := by
        rcases hbad with h | h
        · obtain ⟨v, hvmem, hvfalse⟩ := h
          rw [List.find?_eq_none] at hvn
          have := hvn v hvmem
          simp [hvfalse] at this
        · exact h
      have hfind : ∃ x, (selectedModels req.models).find?
          (fun m => !(MODELS_keys.contains m)) = some x := by
        rw [← Option.isSome_iff_exists, List.find?_isSome]
        obtain ⟨m, hm, hmf⟩ := hmdl
        refine ⟨m, hm, ?_⟩
        simp only [Bool.not_eq_true']
        exact hmf
      obtain ⟨x, hx⟩ := hfind
      rw [hvn, hx]
      exact ⟨⟨"Unknown model: " ++ x, rfl⟩, rfl⟩

/-- Witness for C7: a request for a known video but an unknown model id, and a
batch request whose second video is unknown, against a one-job store. -/
theorem async_creation_validation_witness :
    ((∃ m ∈ selectedModels (some ["bogus-model"]), MODELS_keys.contains m = false) ∧
      (∃ e, (compare_async c3Store0 5 "new" (fun v => v == "v1")
        { video_id := "v1", prompt := "p", models := some ["bogus-model"] }).1 = .error e) ∧
      (compare_async c3Store0 5 "new" (fun v => v == "v1")
        { video_id := "v1", prompt := "p", models := some ["bogus-model"] }).2 = c3Store0) ∧
    ((∃ v ∈ ["v1", "v2"], (fun v => v == "v1") v = false) ∧
      (∃ e, (batch_compare_async c3Store0 5 "new" (fun v => v == "v1")
        { video_ids := ["v1", "v2"], prompts := ["p"], models := none }).1 = .error e) ∧
      (batch_compare_async c3Store0 5 "new" (fun v => v == "v1")
        { video_ids := ["v1", "v2"], prompts := ["p"], models := none }).2 = c3Store0) := by
  have h := async_creation_validation c3Store0 5 "new" (fun v => v == "v1")
  refine ⟨⟨⟨"bogus-model", by decide, by decide⟩, ?_⟩, ⟨⟨"v2", by decide, rfl⟩, ?_⟩⟩
  · exact h.1 { video_id := "v1", prompt := "p", models := some ["bogus-model"] }
      (Or.inr ⟨"bogus-model", by decide, by decide⟩)
  · exact h.2 { video_ids := ["v1", "v2"], prompts := ["p"], models := none }
      (Or.inl ⟨"v2", by decide, rfl⟩)

/-- Outcome of one `client.models.generate_content` call inside
`run_model_on_video`: the response text, or the raised exception's `str(e)`.
The network call is an external collaborator (§6 of the design). -/
inductive CallOutcome where
  | ok (text : String)
  | err (msg : String)
deriving DecidableEq, Repr

/-- `run_model_on_video` (`app/api/compare.py` lines 81-151): on success a
`ModelResult` with the response text and no error; on any exception a result
with empty response and `error=str(e)`.  Both paths record the measured
latency, passed in here. -/
def run_model_on_video (model_name model_id : String) (outcome : CallOutcome)
    (latency : Nat) : ModelResult :=
  match outcome with
  | .ok text =>
    { model_name := model_name, model_id := model_id, response := text,
      latency_ms := some latency }
  | .err msg =>
    { model_name := model_name, model_id := model_id, response := "",
      error := some msg, latency_ms := some latency }

/-- Joint outcome of the judge call and the JSON parsing in
`evaluate_results`: the parsed evaluation list and overall summary on success,
or `str(e)` of whatever exception was raised (judge call failure,
`json.loads` failure, missing "evaluations" key, score of the wrong type,
...). -/
abbrev EvalOutcome := Except String (List EvaluationScore × String)

/-- `evaluate_results` (`app/api/compare.py` lines 154-250): the whole try
body either returns the parsed evaluations with
`data.get("overall_summary", "")`, or raises, in which case the except arm
returns the empty list and "Evaluation failed: " followed by the exception
text. -/
def evaluate_results (outcome : EvalOutcome) : List EvaluationScore × String :=
  match outcome with
  | .ok parsed => parsed
  | .error e => ([], "Evaluation failed: " ++ e)

/-- The periodic estimate of `update_progress_periodically` inside
`_run_comparison_job`: `min(20 + int((elapsed / 60) * 55), 75)` (Python `int`
truncates toward zero, which is the floor for the nonnegative elapsed). -/
def singleEstimate (elapsed : ℚ) : Int :=
  min (20 + Int.floor (elapsed / 60 * 55)) 75

/-- `combo_progress_range = int(85 / total_combinations)` from
`update_combo_progress`. -/
def comboRange (total : Nat) : Int :=
  Int.floor ((85 : ℚ) / total)

/-- `base_progress = int(10 + ((current_combo - 1) / total_combinations) * 85)`
from `_run_batch_comparison_job`. -/
def baseProgress (total combo : Nat) : Int :=
  Int.floor ((10 : ℚ) + ((combo : ℚ) - 1) / total * 85)

/-- One estimator write of `update_combo_progress`:
`base_progress + min(int((elapsed / 60) * range), range - 5)`. -/
def comboEstimate (total combo : Nat) (elapsed : ℚ) : Int :=
  baseProgress total combo +
    min (Int.floor (elapsed / 60 * (comboRange total : ℚ))) (comboRange total - 5)

/-- `eval_progress = base_progress + int(0.8 * (85 / total_combinations))`. -/
def evalProgress (total combo : Nat) : Int :=
  baseProgress total combo + Int.floor ((8 : ℚ) / 10 * (85 / total))

/-- A FAILED update as written by the except arms of both runners. -/
def failArgs (t : Nat) (msg : String) : UpdateArgs :=
  { time := t, status := some .failed, error := some msg }

/-- The in-parallel model results of one fan-out (the `asyncio.gather` over
`run_model_on_video` tasks).  The `MODELS[name]` lookups are guarded by the
`find?` checks in the runners below, so the `filterMap` never actually drops
an element where it is used. -/
def singleResults (selected : List String) (outcome : String → CallOutcome)
    (lat : String → Nat) : List ModelResult :=
  selected.filterMap
    (fun n => (MODELS_find n).map (fun mid => run_model_on_video n mid (outcome n) (lat n)))

/-- The single-compare result entry assembled by `_run_comparison_job`:
falsy values (`[]`, `""`) become `None` in the stored dict. -/
def singleEntry (video_id prompt : String) (selected : List String)
    (outcome : String → CallOutcome) (lat : String → Nat)
    (evalOut : EvalOutcome) : CompareEntry :=
  { video_id := video_id
    prompt := prompt
    results := singleResults selected outcome lat
    evaluation :=
      if (evaluate_results evalOut).1.isEmpty then none
      else some (evaluate_results evalOut).1
    overall_summary :=
      if (evaluate_results evalOut).2 = "" then none
      else some (evaluate_results evalOut).2 }

/-- The initial RUNNING write of `_run_comparison_job` (progress 10). -/
def startSingleUpdate (now : Nat) : UpdateArgs :=
  { time := now
    status := some .running
    progress := some 10
    progress_message := some "Starting comparison..." }

/-- The progress-20 write announcing the parallel model fan-out. -/
def modelsPhaseUpdate (now : Nat) (count : Nat) : UpdateArgs :=
  { time := now
    progress := some 20
    progress_message := some ("Running " ++ toString count ++ " models in parallel...") }

/-- One periodic write of `update_progress_periodically`. -/
def estimateUpdate (now : Nat) (e : ℚ) : UpdateArgs :=
  { time := now
    progress := some (singleEstimate e)
    progress_message := some ("Processing models... (" ++ toString (Int.floor e) ++ "s elapsed)") }

/-- The progress-80 write before the evaluation step. -/
def evalPhaseUpdate (now : Nat) : UpdateArgs :=
  { time := now
    progress := some 80
    progress_message := some "Models completed. Evaluating results..." }

/-- The final COMPLETED write of `_run_comparison_job`. -/
def completedSingleUpdate (now : Nat) (entry : CompareEntry) : UpdateArgs :=
  { time := now
    status := some .completed
    progress := some 100
    progress_message := some "Comparison completed"
    result := some (.single entry) }

/-- The initial RUNNING write of `_run_batch_comparison_job` (progress 5). -/
def startBatchUpdate (now : Nat) : UpdateArgs :=
  { time := now
    status := some .running
    progress := some 5
    progress_message := some "Starting batch comparison..." }

/-- The base-progress write opening one batch combination. -/
def comboBaseUpdate (now : Nat) (total combo : Nat) : UpdateArgs :=
  { time := now
    progress := some (baseProgress total combo)
    progress_message := some ("Processing combination " ++ toString combo ++
      "/" ++ toString total ++ "...") }

/-- One periodic write of `update_combo_progress`. -/
def comboEstimateUpdate (now : Nat) (total combo : Nat) (e : ℚ) : UpdateArgs :=
  { time := now
    progress := some (comboEstimate total combo e)
    progress_message := some ("Combo " ++ toString combo ++ "/" ++
      toString total ++ ": Processing... (" ++ toString (Int.floor e) ++ "s)") }

/-- The evaluation-phase write of one batch combination. -/
def comboEvalUpdate (now : Nat) (total combo : Nat) : UpdateArgs :=
  { time := now
    progress := some (evalProgress total combo)
    progress_message := some ("Combo " ++ toString combo ++ "/" ++
      toString total ++ ": Evaluating...") }

/-- The final COMPLETED write of `_run_batch_comparison_job`. -/
def completedBatchUpdate (now : Nat) (entries : List CompareEntry)
    (tv tp tc : Nat) : UpdateArgs :=
  { time := now
    status := some .completed
    progress := some 100
    progress_message := some "Batch comparison completed"
    result := some (.batch entries tv tp tc) }

/-- The sequence of `update_job` calls issued by `_run_comparison_job`
(`app/api/compare.py` lines 438-549), in order.  Parameters model the
external collaborators: `videoExists` is the `get_video_path` +
`os.path.exists` check, `clientOk` is `get_client()` (which raises when no
API key is configured), `outcome`/`lat` give each model call's result,
`estSamples` lists the elapsed times at which the periodic estimator fired
(it is joined before the 80% write, and it has not run yet when the model
task list raises `KeyError`), and `evalOut` is the judge outcome.  All
updates read the clock as `now`; timestamp behaviour is analysed separately
at the `update_job` level. -/
def singleJobUpdates (now : Nat) (video_id prompt : String)
    (models : Option (List String)) (videoExists : Bool) (clientOk : Bool)
    (outcome : String → CallOutcome) (lat : String → Nat)
    (estSamples : List ℚ) (evalOut : EvalOutcome) : List UpdateArgs :=
  if ¬ videoExists then
    [startSingleUpdate now, failArgs now "Video not found"]
  else if ¬ clientOk then
    [startSingleUpdate now, failArgs now "500: GEMINI_API_KEY is not configured"]
  else
    if ((selectedModels models).find? (fun n => (MODELS_find n).isNone)).isSome then
      [startSingleUpdate now, modelsPhaseUpdate now (selectedModels models).length,
       failArgs now "KeyError"]
    else
      [startSingleUpdate now, modelsPhaseUpdate now (selectedModels models).length] ++
        estSamples.map (estimateUpdate now) ++
        [evalPhaseUpdate now,
         completedSingleUpdate now
           (singleEntry video_id prompt (selectedModels models) outcome lat evalOut)]

/-- The cartesian iteration order of `_run_batch_comparison_job`: videos
outer, prompts inner. -/
def combosOf (video_ids prompts : List String) : List (String × String) :=
  video_ids.flatMap (fun v => prompts.map (fun p => (v, p)))

/-- The per-combination entry appended to `comparisons` by
`_run_batch_comparison_job`. -/
def comboEntry (v p : String) (selected : List String)
    (outcome : String → String → String → CallOutcome)
    (lat : String → String → String → Nat)
    (evalOut : String → String → EvalOutcome) : CompareEntry :=
  { video_id := v
    prompt := p
    results := selected.filterMap
      (fun n => (MODELS_find n).map (fun mid => run_model_on_video n mid (outcome v p n) (lat v p n)))
    evaluation :=
      if (evaluate_results (evalOut v p)).1.isEmpty then none
      else some (evaluate_results (evalOut v p)).1
    overall_summary :=
      if (evaluate_results (evalOut v p)).2 = "" then none
      else some (evaluate_results (evalOut v p)).2 }

/-- The `comparisons` list assembled over the full cartesian product. -/
def batchEntries (video_ids prompts : List String) (selected : List String)
    (outcome : String → String → String → CallOutcome)
    (lat : String → String → String → Nat)
    (evalOut : String → String → EvalOutcome) : List CompareEntry :=
  (combosOf video_ids prompts).map
    (fun vp => comboEntry vp.1 vp.2 selected outcome lat evalOut)

/-- The three progress writes of one batch combination: the base write, the
estimator writes for the sampled elapsed times, and the evaluation-phase
write. -/
def comboBlock (now : Nat) (total combo : Nat) (v p : String)
    (samples : String → String → List ℚ) : List UpdateArgs :=
  comboBaseUpdate now total combo ::
    (samples v p).map (comboEstimateUpdate now total combo) ++
    [comboEvalUpdate now total combo]

/-- The sequence of `update_job` calls issued by `_run_batch_comparison_job`
(`app/api/compare.py` lines 552-676), in order: the 5% RUNNING write; a
FAILED write when a video is missing or the client raises; then per
combination (videos outer, prompts inner) the base write, the estimator
writes and the evaluation write; a FAILED write when a model name is unknown
(the first combination's task list raises `KeyError` before its estimator has
fired); and finally the COMPLETED write carrying the batch payload. -/
def batchJobUpdates (now : Nat) (video_ids prompts : List String)
    (models : Option (List String)) (videoExists : String → Bool) (clientOk : Bool)
    (outcome : String → String → String → CallOutcome)
    (lat : String → String → String → Nat)
    (samples : String → String → List ℚ)
    (evalOut : String → String → EvalOutcome) : List UpdateArgs :=
  match video_ids.find? (fun v => !(videoExists v)) with
  | some v => [startBatchUpdate now, failArgs now ("Video not found: " ++ v)]
  | none =>
    if ¬ clientOk then
      [startBatchUpdate now, failArgs now "500: GEMINI_API_KEY is not configured"]
    else
      if (((selectedModels models).find? (fun n => (MODELS_find n).isNone)).isSome ∧
          combosOf video_ids prompts ≠ []) then
        [startBatchUpdate now,
         comboBaseUpdate now (video_ids.length * prompts.length) 1,
         failArgs now "KeyError"]
      else
        startBatchUpdate now ::
          (combosOf video_ids prompts).enum.flatMap
            (fun ie => comboBlock now (video_ids.length * prompts.length)
              (ie.1 + 1) ie.2.1 ie.2.2 samples) ++
          [completedBatchUpdate now
            (batchEntries video_ids prompts (selectedModels models) outcome lat evalOut)
            video_ids.length prompts.length (video_ids.length * prompts.length)]

/-- The progress values a sequence of update calls writes, in order. -/
def progressWrites (us : List UpdateArgs) : List Int :=
  us.filterMap (fun u => u.progress)

/-- A set and non-empty optional error string. -/
def optNonempty : Option String → Bool
  | some e => e != ""
  | none => false

/-- The ModelResult invariant claimed by the data model: exactly one of
a non-empty response and a non-empty error holds. -/
def exactlyOneOf (r : ModelResult) : Prop :=
  (r.response ≠ "" ∧ optNonempty r.error = false) ∨
  (r.response = "" ∧ optNonempty r.error = true)

/-- C9 counterexample: a model call that succeeds but returns empty text
yields a ModelResult with empty response and no error — neither side of the
claimed exactly-one disjunction holds, and the response is empty although the
call did not fail. -/
theorem run_model_empty_text_counterexample :
    (run_model_on_video "gemini-2.5-pro" "gemini-2.5-pro" (.ok "") 5).response = "" ∧
    (run_model_on_video "gemini-2.5-pro" "gemini-2.5-pro" (.ok "") 5).error = none ∧
    ¬ exactlyOneOf (run_model_on_video "gemini-2.5-pro" "gemini-2.5-pro" (.ok "") 5) := by
  refine ⟨rfl, rfl, ?_⟩
  intro h
  rcases h with ⟨h1, _⟩ | ⟨_, h2⟩
  · exact h1 rfl
  · cases h2

/-- C9 amended: `run_model_on_video` copies the call text into `response` on
success (with `error = None`) and stores `str(e)` in `error` on failure (with
`response = ""`); consequently exactly one of a non-empty response and a
non-empty error holds whenever a successful call returns non-empty text and a
raised exception has a non-empty string form, and under those provisos the
response is empty exactly when the call failed.  A success with empty text
(or a failure whose exception stringifies to "") has neither. -/
theorem run_model_on_video_shape (name mid : String) (outcome : CallOutcome)
    (lat : Nat) :
    (∀ t, outcome = .ok t →
      (run_model_on_video name mid outcome lat).response = t ∧
      (run_model_on_video name mid outcome lat).error = none) ∧
    (∀ e, outcome = .err e →
      (run_model_on_video name mid outcome lat).response = "" ∧
      (run_model_on_video name mid outcome lat).error = some e) ∧
    ((∀ t, outcome = .ok t → t ≠ "") → (∀ e, outcome = .err e → e ≠ "") →
      (exactlyOneOf (run_model_on_video name mid outcome lat) ∧
        ((run_model_on_video name mid outcome lat).response = "" ↔
          ∃ e, outcome = .err e))) := by
  cases outcome with
  | ok t =>
    refine ⟨?_, ?_, ?_⟩
    · intro t' ht
      cases ht
      exact ⟨rfl, rfl⟩
    · intro e he
      cases he
    · intro h1 _
      have ht : t ≠ "" := h1 t rfl
      refine ⟨Or.inl ⟨ht, rfl⟩, ?_⟩
      constructor
      · intro hr
        exact absurd hr ht
      · rintro ⟨e, he⟩
        cases he
  | err e =>
    refine ⟨?_, ?_, ?_⟩
    · intro t ht
      cases ht
    · intro e' he
      cases he
      exact ⟨rfl, rfl⟩
    · intro _ h2
      have he : e ≠ "" := h2 e rfl
      refine ⟨Or.inr ⟨rfl, ?_⟩, fun _ => ⟨e, rfl⟩, fun _ => rfl⟩
      show (e != "") = true
      exact bne_iff_ne.mpr he

/-- Witness for the amended C9 theorem at a concrete successful call with
non-empty text. -/
theorem run_model_on_video_shape_witness :
    exactlyOneOf (run_model_on_video "m" "m" (.ok "hello") 3) ∧
    ((run_model_on_video "m" "m" (.ok "hello") 3).response = "" ↔
      ∃ e, CallOutcome.ok "hello" = CallOutcome.err e) :=
  (run_model_on_video_shape "m" "m" (.ok "hello") 3).2.2
    (fun t ht => by cases ht; decide)
    (fun e he => by cases he)

theorem applyStatusUpdate_result (j : Job) (s : JobStatus) (now : Nat) :
    (applyStatusUpdate j s now).result = j.result := by
  unfold applyStatusUpdate
  by_cases h : s = .running ∧ j.started_at = none
  · simp [h]
  · simp only [h, if_false, if_neg h]
    split <;> rfl

theorem updateJobPure_result (j : Job) (u : UpdateArgs) :
    (updateJobPure j u).result =
      match u.result with
      | some r => some r
      | none => j.result := by
  rcases u with ⟨t, st, pr, pm, rs, er⟩
  cases rs with
  | some r => cases pr <;> cases pm <;> cases er <;> rfl
  | none =>
    have hred : (updateJobPure j ⟨t, st, pr, pm, none, er⟩).result =
        (match st with
          | some s => applyStatusUpdate j s t
          | none => j).result := by
      cases pr <;> cases pm <;> cases er <;> rfl
    rw [hred]
    cases st with
    | none => rfl
    | some s => exact applyStatusUpdate_result j s t

theorem applyUpdates_concat (j : Job) (us : List UpdateArgs) (u : UpdateArgs) :
    applyUpdates j (us ++ [u]) = updateJobPure (applyUpdates j us) u := by
  unfold applyUpdates
  rw [List.foldl_append]
  rfl

theorem models_known_find_none (selected : List String)
    (hm : ∀ n ∈ selected, MODELS_keys.contains n = true) :
    selected.find? (fun n => (MODELS_find n).isNone) = none := by
  rw [List.find?_eq_none]
  intro n hn
  unfold MODELS_find
  rw [hm n hn]
  simp

theorem eval_failed_summary_ne (emsg : String) :
    "Evaluation failed: " ++ emsg ≠ "" := by
  intro h
  have hlen := congrArg String.length h
  rw [String.length_append] at hlen
  have h19 : ("Evaluation failed: ").length = 19 := rfl
  have h0 : ("" : String).length = 0 := rfl
  omega

theorem single_success_final (now : Nat) (video_id prompt : String)
    (models : Option (List String)) (outcome : String → CallOutcome)
    (lat : String → Nat) (estSamples : List ℚ) (evalOut : EvalOutcome) (j : Job)
    (hm : ∀ n ∈ selectedModels models, MODELS_keys.contains n = true) :
    (applyUpdates j (singleJobUpdates now video_id prompt models true true
        outcome lat estSamples evalOut)).status = .completed ∧
    (applyUpdates j (singleJobUpdates now video_id prompt models true true
        outcome lat estSamples evalOut)).result =
      some (.single (singleEntry video_id prompt (selectedModels models)
        outcome lat evalOut)) := by
  have hfind := models_known_find_none (selectedModels models) hm
  have hred : singleJobUpdates now video_id prompt models true true
      outcome lat estSamples evalOut =
      ([startSingleUpdate now, modelsPhaseUpdate now (selectedModels models).length] ++
        estSamples.map (estimateUpdate now) ++ [evalPhaseUpdate now]) ++
      [completedSingleUpdate now
        (singleEntry video_id prompt (selectedModels models) outcome lat evalOut)] := by
    simp [singleJobUpdates, hfind]
  rw [hred, applyUpdates_concat]
  constructor
  · rw [updateJobPure_status]
    rfl
  · rw [updateJobPure_result]
    rfl

/-- C4: in a single-compare job whose selected models include a call that
raises and a call that succeeds, the job still reaches COMPLETED with the
assembled result stored; the failing model's ModelResult carries that model's
error string (empty response) and the succeeding model's carries its response
(no error).  No model failure aborts the job. -/
theorem model_failure_isolated (now : Nat) (video_id prompt : String)
    (models : Option (List String)) (outcome : String → CallOutcome)
    (lat : String → Nat) (estSamples : List ℚ) (evalOut : EvalOutcome) (j : Job)
    (hm : ∀ n ∈ selectedModels models, MODELS_keys.contains n = true)
    (mf ms ef ts : String)
    (hmf : mf ∈ selectedModels models) (hms : ms ∈ selectedModels models)
    (hof : outcome mf = .err ef) (hos : outcome ms = .ok ts) :
    (applyUpdates j (singleJobUpdates now video_id prompt models true true
        outcome lat estSamples evalOut)).status = .completed ∧
    (applyUpdates j (singleJobUpdates now video_id prompt models true true
        outcome lat estSamples evalOut)).result =
      some (.single (singleEntry video_id prompt (selectedModels models)
        outcome lat evalOut)) ∧
    (∃ r ∈ (singleEntry video_id prompt (selectedModels models)
        outcome lat evalOut).results,
      r.model_name = mf ∧ r.response = "" ∧ r.error = some ef) ∧
    (∃ r ∈ (singleEntry video_id prompt (selectedModels models)
        outcome lat evalOut).results,
      r.model_name = ms ∧ r.response = ts ∧ r.error = none) := by
  obtain ⟨h1, h2⟩ := single_success_final now video_id prompt models outcome lat
    estSamples evalOut j hm
  refine ⟨h1, h2, ?_, ?_⟩
  · refine ⟨run_model_on_video mf mf (outcome mf) (lat mf), ?_, ?_⟩
    · apply List.mem_filterMap.mpr
      refine ⟨mf, hmf, ?_⟩
      unfold MODELS_find
      rw [hm mf hmf]
      simp
    · rw [hof]
      exact ⟨rfl, rfl, rfl⟩
  · refine ⟨run_model_on_video ms ms (outcome ms) (lat ms), ?_, ?_⟩
    · apply List.mem_filterMap.mpr
      refine ⟨ms, hms, ?_⟩
      unfold MODELS_find
      rw [hm ms hms]
      simp
    · rw [hos]
      exact ⟨rfl, rfl, rfl⟩

/-- A two-model selection where the first call always raises and the second
always succeeds. -/
def c4Models : Option (List String) := some ["gemini-2.5-pro", "gemini-2.5-flash"]

/-- Concrete outcomes: "gemini-2.5-pro" raises "boom", everything else
answers "fine". -/
def c4Outcome : String → CallOutcome :=
  fun n => if n == "gemini-2.5-pro" then .err "boom" else .ok "fine"

/-- Witness for C4 at a concrete two-model job with one failing and one
succeeding call. -/
theorem model_failure_isolated_witness :
    (applyUpdates (freshJob "j" 0 demoRequest)
        (singleJobUpdates 1 "v" "p" c4Models true true c4Outcome (fun _ => 1)
          [] (.ok ([], "sum")))).status = .completed ∧
    (applyUpdates (freshJob "j" 0 demoRequest)
        (singleJobUpdates 1 "v" "p" c4Models true true c4Outcome (fun _ => 1)
          [] (.ok ([], "sum")))).result =
      some (.single (singleEntry "v" "p" (selectedModels c4Models)
        c4Outcome (fun _ => 1) (.ok ([], "sum")))) ∧
    (∃ r ∈ (singleEntry "v" "p" (selectedModels c4Models) c4Outcome
        (fun _ => 1) (.ok ([], "sum"))).results,
      r.model_name = "gemini-2.5-pro" ∧ r.response = "" ∧ r.error = some "boom") ∧
    (∃ r ∈ (singleEntry "v" "p" (selectedModels c4Models) c4Outcome
        (fun _ => 1) (.ok ([], "sum"))).results,
      r.model_name = "gemini-2.5-flash" ∧ r.response = "fine" ∧ r.error = none) :=
  model_failure_isolated 1 "v" "p" c4Models c4Outcome (fun _ => 1) []
    (.ok ([], "sum")) (freshJob "j" 0 demoRequest) (by decide)
    "gemini-2.5-pro" "gemini-2.5-flash" "boom" "fine"
    (by decide) (by decide) (by decide) (by decide)

/-- C5: when the judge call fails or its output does not parse as the
expected structured JSON (any exception in the try body of
`evaluate_results`), `evaluate_results` returns the empty evaluation list with
a non-empty explanatory summary, and the job still reaches COMPLETED with
`evaluation = None` and that summary recorded; the evaluation failure is never
escalated to job status FAILED. -/
theorem eval_failure_not_escalated (now : Nat) (video_id prompt : String)
    (models : Option (List String)) (outcome : String → CallOutcome)
    (lat : String → Nat) (estSamples : List ℚ) (emsg : String) (j : Job)
    (hm : ∀ n ∈ selectedModels models, MODELS_keys.contains n = true) :
    evaluate_results (.error emsg) = ([], "Evaluation failed: " ++ emsg) ∧
    ("Evaluation failed: " ++ emsg) ≠ "" ∧
    (applyUpdates j (singleJobUpdates now video_id prompt models true true
        outcome lat estSamples (.error emsg))).status = .completed ∧
    (applyUpdates j (singleJobUpdates now video_id prompt models true true
        outcome lat estSamples (.error emsg))).result =
      some (.single (singleEntry video_id prompt (selectedModels models)
        outcome lat (.error emsg))) ∧
    (singleEntry video_id prompt (selectedModels models) outcome lat
      (.error emsg)).evaluation = none ∧
    (singleEntry video_id prompt (selectedModels models) outcome lat
      (.error emsg)).overall_summary = some ("Evaluation failed: " ++ emsg) := by
  obtain ⟨h1, h2⟩ := single_success_final now video_id prompt models outcome lat
    estSamples (.error emsg) j hm
  refine ⟨rfl, eval_failed_summary_ne emsg, h1, h2, ?_, ?_⟩
  · rfl
  · show (if (evaluate_results (.error emsg)).2 = "" then none
      else some (evaluate_results (.error emsg)).2) = some ("Evaluation failed: " ++ emsg)
    have he2 : (evaluate_results (Except.error emsg)).2 =
        "Evaluation failed: " ++ emsg := rfl
    rw [he2, if_neg (eval_failed_summary_ne emsg)]

/-- Witness for C5 at a concrete job whose judge outcome is the exception
"boom". -/
theorem eval_failure_not_escalated_witness :
    evaluate_results (.error "boom") = ([], "Evaluation failed: " ++ "boom") ∧
    ("Evaluation failed: " ++ "boom") ≠ "" ∧
    (applyUpdates (freshJob "j" 0 demoRequest)
        (singleJobUpdates 1 "v" "p" c4Models true true c4Outcome (fun _ => 1)
          [] (.error "boom"))).status = .completed ∧
    (applyUpdates (freshJob "j" 0 demoRequest)
        (singleJobUpdates 1 "v" "p" c4Models true true c4Outcome (fun _ => 1)
          [] (.error "boom"))).result =
      some (.single (singleEntry "v" "p" (selectedModels c4Models)
        c4Outcome (fun _ => 1) (.error "boom"))) ∧
    (singleEntry "v" "p" (selectedModels c4Models) c4Outcome (fun _ => 1)
      (.error "boom")).evaluation = none ∧
    (singleEntry "v" "p" (selectedModels c4Models) c4Outcome (fun _ => 1)
      (.error "boom")).overall_summary = some ("Evaluation failed: " ++ "boom") :=
  eval_failure_not_escalated 1 "v" "p" c4Models c4Outcome (fun _ => 1) []
    "boom" (freshJob "j" 0 demoRequest) (by decide)

theorem combosOf_length (vs ps : List String) :
    (combosOf vs ps).length = vs.length * ps.length := by
  induction vs with
  | nil => simp [combosOf]
  | cons v vs ih =>
    have hstep : combosOf (v :: vs) ps =
        ps.map (fun p => (v, p)) ++ combosOf vs ps := rfl
    rw [hstep, List.length_append, List.length_map, ih, List.length_cons,
      Nat.succ_mul]
    omega

theorem combosOf_getElem (vs ps : List String) :
    ∀ (iv ip : Nat) (hiv : iv < vs.length) (hip : ip < ps.length),
      (combosOf vs ps)[iv * ps.length + ip]? =
        some (vs.get ⟨iv, hiv⟩, ps.get ⟨ip, hip⟩) := by
  induction vs with
  | nil =>
    intro iv ip hiv _
    exact absurd hiv (Nat.not_lt_zero iv)
  | cons v vs ih =>
    intro iv ip hiv hip
    have hstep : combosOf (v :: vs) ps =
        ps.map (fun p => (v, p)) ++ combosOf vs ps := rfl
    rw [hstep]
    cases iv with
    | zero =>
      have hidx : 0 * ps.length + ip = ip := by omega
      rw [hidx]
      have hlt : ip < (ps.map (fun p => (v, p))).length := by
        rw [List.length_map]
        exact hip
      rw [List.getElem?_append_left hlt, List.getElem?_map,
        List.getElem?_eq_getElem hip]
      rfl
    | succ iv' =>
      have hge : (ps.map (fun p => (v, p))).length ≤ (iv' + 1) * ps.length + ip := by
        rw [List.length_map, Nat.succ_mul]
        omega
      rw [List.getElem?_append_right hge]
      have harith : (iv' + 1) * ps.length + ip -
          (ps.map (fun p => (v, p))).length = iv' * ps.length + ip := by
        rw [List.length_map, Nat.succ_mul]
        omega
      rw [harith]
      have hiv' : iv' < vs.length := by
        rw [List.length_cons] at hiv
        omega
      rw [ih iv' ip hiv' hip]
      rfl

theorem batch_success_final (now : Nat) (video_ids prompts : List String)
    (models : Option (List String)) (videoExists : String → Bool)
    (outcome : String → String → String → CallOutcome)
    (lat : String → String → String → Nat)
    (samples : String → String → List ℚ)
    (evalOut : String → String → EvalOutcome) (j : Job)
    (hv : ∀ v ∈ video_ids, videoExists v = true)
    (hm : ∀ n ∈ selectedModels models, MODELS_keys.contains n = true) :
    (applyUpdates j (batchJobUpdates now video_ids prompts models videoExists
        true outcome lat samples evalOut)).status = .completed ∧
    (applyUpdates j (batchJobUpdates now video_ids prompts models videoExists
        true outcome lat samples evalOut)).result =
      some (.batch (batchEntries video_ids prompts (selectedModels models)
        outcome lat evalOut) video_ids.length prompts.length
        (video_ids.length * prompts.length)) := by
  have hvfind : video_ids.find? (fun v => !(videoExists v)) = none := by
    rw [List.find?_eq_none]
    intro v hv'
    simp [hv v hv']
  have hmfind := models_known_find_none (selectedModels models) hm
  have hred : batchJobUpdates now video_ids prompts models videoExists true
      outcome lat samples evalOut =
      (startBatchUpdate now ::
        (combosOf video_ids prompts).enum.flatMap
          (fun ie => comboBlock now (video_ids.length * prompts.length)
            (ie.1 + 1) ie.2.1 ie.2.2 samples)) ++
      [completedBatchUpdate now
        (batchEntries video_ids prompts (selectedModels models) outcome lat evalOut)
        video_ids.length prompts.length (video_ids.length * prompts.length)] := by
    simp [batchJobUpdates, hvfind, hmfind]
  rw [hred, applyUpdates_concat]
  constructor
  · rw [updateJobPure_status]
    rfl
  · rw [updateJobPure_result]
    rfl

/-- C6: a batch job over V video ids and P prompts iterates the cartesian
product sequentially and completes with exactly V*P per-combination entries —
in video-major order: entry iv*P+ip is the comparison of video iv with prompt
ip — and with totals total_videos = V, total_prompts = P and
total_combinations = V*P. -/
theorem batch_cartesian_product (now : Nat) (video_ids prompts : List String)
    (models : Option (List String)) (videoExists : String → Bool)
    (outcome : String → String → String → CallOutcome)
    (lat : String → String → String → Nat)
    (samples : String → String → List ℚ)
    (evalOut : String → String → EvalOutcome) (j : Job)
    (hv : ∀ v ∈ video_ids, videoExists v = true)
    (hm : ∀ n ∈ selectedModels models, MODELS_keys.contains n = true) :
    (applyUpdates j (batchJobUpdates now video_ids prompts models videoExists
        true outcome lat samples evalOut)).status = .completed ∧
    (applyUpdates j (batchJobUpdates now video_ids prompts models videoExists
        true outcome lat samples evalOut)).result =
      some (.batch (batchEntries video_ids prompts (selectedModels models)
        outcome lat evalOut) video_ids.length prompts.length
        (video_ids.length * prompts.length)) ∧
    (batchEntries video_ids prompts (selectedModels models) outcome lat
      evalOut).length = video_ids.length * prompts.length ∧
    (∀ (iv ip : Nat) (hiv : iv < video_ids.length) (hip : ip < prompts.length),
      (batchEntries video_ids prompts (selectedModels models) outcome lat
        evalOut)[iv * prompts.length + ip]? =
        some (comboEntry (video_ids.get ⟨iv, hiv⟩) (prompts.get ⟨ip, hip⟩)
          (selectedModels models) outcome lat evalOut)) := by
  obtain ⟨h1, h2⟩ := batch_success_final now video_ids prompts models
    videoExists outcome lat samples evalOut j hv hm
  refine ⟨h1, h2, ?_, ?_⟩
  · unfold batchEntries
    rw [List.length_map]
    exact combosOf_length video_ids prompts
  · intro iv ip hiv hip
    unfold batchEntries
    rw [List.getElem?_map, combosOf_getElem video_ids prompts iv ip hiv hip]
    rfl

/-- Witness for C6: a concrete 2-video, 3-prompt batch (6 combinations). -/
theorem batch_cartesian_product_witness :
    (applyUpdates (freshJob "j" 0 demoRequest)
        (batchJobUpdates 1 ["a", "b"] ["p", "q", "r"] c4Models (fun _ => true)
          true (fun _ _ _ => .ok "t") (fun _ _ _ => 1) (fun _ _ => [])
          (fun _ _ => .ok ([], "s")))).status = .completed ∧
    (applyUpdates (freshJob "j" 0 demoRequest)
        (batchJobUpdates 1 ["a", "b"] ["p", "q", "r"] c4Models (fun _ => true)
          true (fun _ _ _ => .ok "t") (fun _ _ _ => 1) (fun _ _ => [])
          (fun _ _ => .ok ([], "s")))).result =
      some (.batch (batchEntries ["a", "b"] ["p", "q", "r"]
        (selectedModels c4Models) (fun _ _ _ => .ok "t") (fun _ _ _ => 1)
        (fun _ _ => .ok ([], "s")))
        (["a", "b"] : List String).length (["p", "q", "r"] : List String).length
        ((["a", "b"] : List String).length * (["p", "q", "r"] : List String).length)) ∧
    (batchEntries ["a", "b"] ["p", "q", "r"] (selectedModels c4Models)
      (fun _ _ _ => .ok "t") (fun _ _ _ => 1)
      (fun _ _ => .ok ([], "s"))).length =
      (["a", "b"] : List String).length * (["p", "q", "r"] : List String).length ∧
    (∀ (iv ip : Nat) (hiv : iv < (["a", "b"] : List String).length)
        (hip : ip < (["p", "q", "r"] : List String).length),
      (batchEntries ["a", "b"] ["p", "q", "r"] (selectedModels c4Models)
        (fun _ _ _ => .ok "t") (fun _ _ _ => 1)
        (fun _ _ => .ok ([], "s")))[iv * (["p", "q", "r"] : List String).length + ip]? =
        some (comboEntry ((["a", "b"] : List String).get ⟨iv, hiv⟩)
          ((["p", "q", "r"] : List String).get ⟨ip, hip⟩)
          (selectedModels c4Models) (fun _ _ _ => .ok "t") (fun _ _ _ => 1)
          (fun _ _ => .ok ([], "s")))) :=
  batch_cartesian_product 1 ["a", "b"] ["p", "q", "r"] c4Models (fun _ => true)
    (fun _ _ _ => .ok "t") (fun _ _ _ => 1) (fun _ _ => [])
    (fun _ _ => .ok ([], "s")) (freshJob "j" 0 demoRequest)
    (fun v _ => rfl) (by decide)

theorem floor_le_int {x : ℚ} {n : ℤ} (h : x ≤ (n : ℚ)) : Int.floor x ≤ n := by
  have := Int.floor_mono h
  simpa using this

theorem singleEstimate_lb (e : ℚ) (he : 0 ≤ e) : 20 ≤ singleEstimate e := by
  unfold singleEstimate
  apply le_min
  · have : (0:ℤ) ≤ Int.floor (e / 60 * 55) := by
      apply Int.floor_nonneg.mpr
      positivity
    omega
  · norm_num

theorem singleEstimate_ub (e : ℚ) : singleEstimate e ≤ 75 :=
  min_le_right _ _

theorem singleEstimate_mono {a b : ℚ} (h : a ≤ b) :
    singleEstimate a ≤ singleEstimate b := by
  unfold singleEstimate
  apply min_le_min _ le_rfl
  have hq : a / 60 * 55 ≤ b / 60 * 55 := by
    apply mul_le_mul_of_nonneg_right _ (by norm_num)
    exact div_le_div_of_nonneg_right h (by norm_num)
  have := Int.floor_mono hq
  omega

theorem baseProgress_one (total : Nat) : baseProgress total 1 = 10 := by
  unfold baseProgress
  norm_num

theorem baseProgress_le (total combo : Nat) (h1 : 1 ≤ combo) (h2 : combo ≤ total) :
    baseProgress total combo ≤ 95 := by
  unfold baseProgress
  apply floor_le_int
  have ht0 : 0 < total := by omega
  have ht : (0:ℚ) < total := by exact_mod_cast ht0
  have hc : (combo:ℚ) ≤ total := by exact_mod_cast h2
  have hfrac : ((combo:ℚ) - 1) / total ≤ 1 := by
    rw [div_le_one ht]
    linarith
  have hmul : ((combo:ℚ) - 1) / total * 85 ≤ 1 * 85 :=
    mul_le_mul_of_nonneg_right hfrac (by norm_num)
  push_cast
  linarith

theorem comboRange_nonneg (total : Nat) : 0 ≤ comboRange total := by
  unfold comboRange
  apply Int.floor_nonneg.mpr
  positivity

theorem comboEstimate_le (total combo : Nat) (e : ℚ)
    (h1 : 1 ≤ combo) (h2 : combo ≤ total) :
    comboEstimate total combo e ≤ 90 := by
  have hmin : min (⌊e / 60 * ((comboRange total : ℤ) : ℚ)⌋) (comboRange total - 5) ≤
      comboRange total - 5 := min_le_right _ _
  have hbase : (baseProgress total combo : ℚ) ≤ 10 + ((combo:ℚ) - 1) / total * 85 :=
    Int.floor_le _
  have hR : (comboRange total : ℚ) ≤ 85 / total := Int.floor_le _
  have ht0 : 0 < total := by omega
  have ht : (0:ℚ) < total := by exact_mod_cast ht0
  have hc : (combo:ℚ) ≤ total := by exact_mod_cast h2
  have h85 : ((combo:ℚ) - 1) / total * 85 + 85 / total = (combo:ℚ) * 85 / total := by
    field_simp
    ring
  have hfin : (combo:ℚ) * 85 / total ≤ 85 := by
    rw [div_le_iff ht]
    nlinarith
  have key : (10 + ((combo:ℚ) - 1) / total * 85) + (85 / total - 5) ≤ 90 := by
    linarith
  have hcast : ((baseProgress total combo + (comboRange total - 5) : ℤ) : ℚ) ≤ 90 := by
    push_cast
    linarith
  have hz : baseProgress total combo + (comboRange total - 5) ≤ (90:ℤ) := by
    exact_mod_cast hcast
  unfold comboEstimate
  omega

theorem evalProgress_le (total combo : Nat) (h1 : 1 ≤ combo) (h2 : combo ≤ total) :
    evalProgress total combo ≤ 95 := by
  have hbase : (baseProgress total combo : ℚ) ≤ 10 + ((combo:ℚ) - 1) / total * 85 :=
    Int.floor_le _
  have hE : ((⌊(8:ℚ) / 10 * (85 / (total:ℚ))⌋ : ℤ) : ℚ) ≤ (8:ℚ) / 10 * (85 / total) :=
    Int.floor_le _
  have ht0 : 0 < total := by omega
  have ht : (0:ℚ) < total := by exact_mod_cast ht0
  have hc : (combo:ℚ) ≤ total := by exact_mod_cast h2
  have hpos : (0:ℚ) ≤ 85 / total := by positivity
  have hdrop : (8:ℚ) / 10 * (85 / total) ≤ 85 / total := by nlinarith
  have h85 : ((combo:ℚ) - 1) / total * 85 + 85 / total = (combo:ℚ) * 85 / total := by
    field_simp
    ring
  have hfin : (combo:ℚ) * 85 / total ≤ 85 := by
    rw [div_le_iff ht]
    nlinarith
  have key : (10 + ((combo:ℚ) - 1) / total * 85) + (8:ℚ) / 10 * (85 / total) ≤ 95 := by
    linarith
  have hcast : ((baseProgress total combo + ⌊(8:ℚ) / 10 * (85 / (total:ℚ))⌋ : ℤ) : ℚ) ≤ 95 := by
    push_cast
    linarith
  unfold evalProgress
  exact_mod_cast hcast

theorem comboEstimate_lower (total combo : Nat) (e : ℚ) (he : 0 ≤ e) :
    baseProgress total combo - 5 ≤ comboEstimate total combo e ∧
    (5 ≤ comboRange total → baseProgress total combo ≤ comboEstimate total combo e) := by
  have hR : 0 ≤ comboRange total := comboRange_nonneg total
  have hRq : (0:ℚ) ≤ ((comboRange total : ℤ) : ℚ) := by exact_mod_cast hR
  have hfl : (0:ℤ) ≤ ⌊e / 60 * ((comboRange total : ℤ) : ℚ)⌋ := by
    apply Int.floor_nonneg.mpr
    exact mul_nonneg (div_nonneg he (by norm_num)) hRq
  constructor
  · have hm : -5 ≤ min (⌊e / 60 * ((comboRange total : ℤ) : ℚ)⌋) (comboRange total - 5) := by
      apply le_min <;> omega
    unfold comboEstimate
    omega
  · intro h5
    have hm : 0 ≤ min (⌊e / 60 * ((comboRange total : ℤ) : ℚ)⌋) (comboRange total - 5) := by
      apply le_min <;> omega
    unfold comboEstimate
    omega

theorem comboRange_ge_five (total : Nat) (h1 : 1 ≤ total) (h17 : total ≤ 17) :
    5 ≤ comboRange total := by
  unfold comboRange
  apply Int.le_floor.mpr
  have ht : (0:ℚ) < total := by
    exact_mod_cast Nat.lt_of_lt_of_le Nat.zero_lt_one h1
  rw [le_div_iff ht]
  have h17q : (total:ℚ) ≤ 17 := by exact_mod_cast h17
  push_cast
  nlinarith

/-- C1 counterexample: in a batch with 18 total combinations the estimator's
range is int(85/18) = 4, so the clamp `range - 5` is negative and the
estimator write for combination 1 at elapsed 0 is 9 — strictly below the base
progress 10 already written for that combination.  The claimed invariant
"each estimator update for combination k is at least the base progress
already written" fails, and with it the monotonicity of the written
sequence. -/
theorem batch_estimator_below_base_counterexample :
    comboRange 18 = 4 ∧
    baseProgress 18 1 = 10 ∧
    comboEstimate 18 1 0 = 9 ∧
    comboEstimate 18 1 0 < baseProgress 18 1 := by
  have hcr : comboRange 18 = 4 := by
    unfold comboRange
    rw [Int.floor_eq_iff]
    norm_num
  have hbase : baseProgress 18 1 = 10 := baseProgress_one 18
  have hest : comboEstimate 18 1 0 = 9 := by
    unfold comboEstimate
    rw [hbase, hcr]
    have hflr : ⌊(0:ℚ) / 60 * ((4 : ℤ) : ℚ)⌋ = 0 := by norm_num
    rw [hflr]
    norm_num
  exact ⟨hcr, hbase, hest, by rw [hest, hbase]; norm_num⟩

theorem chain'_append_of_bounds (l : List Int) (hl : l.Chain' (· ≤ ·))
    (hhi : ∀ x ∈ l, x ≤ 80) :
    (l ++ [80, 100] : List Int).Chain' (· ≤ ·) := by
  have h80 : List.Chain' (· ≤ ·) ([80, 100] : List Int) := by
    rw [List.chain'_cons]
    exact ⟨by norm_num, List.chain'_singleton 100⟩
  induction l with
  | nil => exact h80
  | cons a l ih =>
    cases l with
    | nil =>
      have ha : a ≤ 80 := hhi a (List.mem_singleton_self a)
      show List.Chain' (· ≤ ·) (a :: [80, 100])
      rw [List.chain'_cons]
      exact ⟨ha, h80⟩
    | cons b l' =>
      rw [List.chain'_cons] at hl
      show List.Chain' (· ≤ ·) (a :: ((b :: l') ++ [80, 100]))
      have hbl : (b :: l') ++ [80, 100] = b :: (l' ++ [80, 100]) := rfl
      rw [hbl, List.chain'_cons]
      refine ⟨hl.1, ?_⟩
      have := ih hl.2 (fun x hx => hhi x (List.mem_cons_of_mem a hx))
      rw [hbl] at this
      exact this

theorem chain'_single_run (l : List Int) (hl : l.Chain' (· ≤ ·))
    (hlo : ∀ x ∈ l, 20 ≤ x) (hhi : ∀ x ∈ l, x ≤ 80) :
    (10 :: 20 :: (l ++ [80, 100]) : List Int).Chain' (· ≤ ·) := by
  have h1 := chain'_append_of_bounds l hl hhi
  have h2 : (20 :: (l ++ [80, 100]) : List Int).Chain' (· ≤ ·) := by
    rw [List.chain'_cons']
    refine ⟨?_, h1⟩
    intro y hy
    cases l with
    | nil =>
      simp at hy
      omega
    | cons a l' =>
      simp at hy
      exact hy ▸ hlo a (List.mem_cons_self a l')
  rw [List.chain'_cons']
  refine ⟨?_, h2⟩
  intro y hy
  simp at hy
  omega

theorem filterMap_progress_estimate (now : Nat) (samples : List ℚ) :
    List.filterMap ((fun u : UpdateArgs => u.progress) ∘ estimateUpdate now)
      samples = samples.map singleEstimate := by
  induction samples with
  | nil => rfl
  | cons e es ih =>
    simp only [List.filterMap_cons, List.map_cons, Function.comp]
    rw [show (estimateUpdate now e).progress = some (singleEstimate e) from rfl]
    rw [ih]

theorem progressWrites_single_success (now : Nat) (samples : List ℚ)
    (entry : CompareEntry) (k : Nat) :
    progressWrites ([startSingleUpdate now, modelsPhaseUpdate now k] ++
      samples.map (estimateUpdate now) ++
      [evalPhaseUpdate now, completedSingleUpdate now entry]) =
    10 :: 20 :: (samples.map singleEstimate ++ [80, 100]) := by
  simp [progressWrites, List.filterMap_append, startSingleUpdate,
    modelsPhaseUpdate, evalPhaseUpdate, completedSingleUpdate,
    List.filterMap_map, filterMap_progress_estimate]

theorem single_progress_le100 (now : Nat) (v p : String)
    (models : Option (List String)) (vE cO : Bool)
    (outcome : String → CallOutcome) (lat : String → Nat)
    (estSamples : List ℚ) (evalOut : EvalOutcome) :
    ∀ x ∈ progressWrites (singleJobUpdates now v p models vE cO outcome lat
      estSamples evalOut), x ≤ 100 := by
  cases vE with
  | false =>
    have hred : progressWrites (singleJobUpdates now v p models false cO
        outcome lat estSamples evalOut) = [10] := rfl
    rw [hred]
    intro x hx
    simp at hx
    omega
  | true =>
    cases cO with
    | false =>
      have hred : progressWrites (singleJobUpdates now v p models true false
          outcome lat estSamples evalOut) = [10] := rfl
      rw [hred]
      intro x hx
      simp at hx
      omega
    | true =>
      by_cases hkey : (((selectedModels models).find?
          (fun n => (MODELS_find n).isNone)).isSome : Prop)
      · have hred : singleJobUpdates now v p models true true outcome lat
            estSamples evalOut =
            [startSingleUpdate now,
             modelsPhaseUpdate now (selectedModels models).length,
             failArgs now "KeyError"] := by
          simp [singleJobUpdates, hkey]
        rw [hred]
        intro x hx
        simp [progressWrites, startSingleUpdate, modelsPhaseUpdate, failArgs] at hx
        rcases hx with rfl | rfl <;> omega
      · have hred : singleJobUpdates now v p models true true outcome lat
            estSamples evalOut =
            [startSingleUpdate now,
             modelsPhaseUpdate now (selectedModels models).length] ++
              estSamples.map (estimateUpdate now) ++
              [evalPhaseUpdate now,
               completedSingleUpdate now (singleEntry v p (selectedModels models)
                 outcome lat evalOut)] := by
          simp [singleJobUpdates, hkey]
        rw [hred, progressWrites_single_success]
        intro x hx
        simp [List.mem_cons, List.mem_append, List.mem_map] at hx
        rcases hx with rfl | rfl | ⟨e, _, rfl⟩ | rfl | rfl
        · omega
        · omega
        · have := singleEstimate_ub e
          omega
        · omega
        · omega

theorem single_progress_chain (now : Nat) (v p : String)
    (models : Option (List String)) (vE cO : Bool)
    (outcome : String → CallOutcome) (lat : String → Nat)
    (estSamples : List ℚ) (evalOut : EvalOutcome)
    (hs : estSamples.Chain' (· ≤ ·)) (hn : ∀ e ∈ estSamples, 0 ≤ e) :
    (progressWrites (singleJobUpdates now v p models vE cO outcome lat
      estSamples evalOut)).Chain' (· ≤ ·) := by
  cases vE with
  | false =>
    have hred : progressWrites (singleJobUpdates now v p models false cO
        outcome lat estSamples evalOut) = [10] := rfl
    rw [hred]
    exact List.chain'_singleton 10
  | true =>
    cases cO with
    | false =>
      have hred : progressWrites (singleJobUpdates now v p models true false
          outcome lat estSamples evalOut) = [10] := rfl
      rw [hred]
      exact List.chain'_singleton 10
    | true =>
      by_cases hkey : (((selectedModels models).find?
          (fun n => (MODELS_find n).isNone)).isSome : Prop)
      · have hred : progressWrites (singleJobUpdates now v p models true true
            outcome lat estSamples evalOut) = [10, 20] := by
          have h1 : singleJobUpdates now v p models true true outcome lat
              estSamples evalOut =
              [startSingleUpdate now,
               modelsPhaseUpdate now (selectedModels models).length,
               failArgs now "KeyError"] := by
            simp [singleJobUpdates, hkey]
          rw [h1]
          rfl
        rw [hred, List.chain'_cons]
        exact ⟨by norm_num, List.chain'_singleton 20⟩
      · have hred : singleJobUpdates now v p models true true outcome lat
            estSamples evalOut =
            [startSingleUpdate now,
             modelsPhaseUpdate now (selectedModels models).length] ++
              estSamples.map (estimateUpdate now) ++
              [evalPhaseUpdate now,
               completedSingleUpdate now (singleEntry v p (selectedModels models)
                 outcome lat evalOut)] := by
          simp [singleJobUpdates, hkey]
        rw [hred, progressWrites_single_success]
        apply chain'_single_run
        · exact (List.chain'_map _).mpr (hs.imp (fun _ _ hab => singleEstimate_mono hab))
        · intro x hx
          obtain ⟨e, he, rfl⟩ := List.mem_map.mp hx
          exact singleEstimate_lb e (hn e he)
        · intro x hx
          obtain ⟨e, _, rfl⟩ := List.mem_map.mp hx
          exact (singleEstimate_ub e).trans (by norm_num)

theorem batch_progress_le100 (now : Nat) (video_ids prompts : List String)
    (models : Option (List String)) (vE : String → Bool) (cO : Bool)
    (outcome : String → String → String → CallOutcome)
    (lat : String → String → String → Nat)
    (samples : String → String → List ℚ)
    (evalOut : String → String → EvalOutcome) :
    ∀ x ∈ progressWrites (batchJobUpdates now video_ids prompts models vE cO
      outcome lat samples evalOut), x ≤ 100 := by
  intro x hx
  unfold progressWrites at hx
  rw [List.mem_filterMap] at hx
  obtain ⟨u, hu, hup⟩ := hx
  unfold batchJobUpdates at hu
  split at hu
  · simp only [List.mem_cons, List.mem_singleton, List.not_mem_nil, or_false] at hu
    rcases hu with rfl | rfl
    · simp [startBatchUpdate] at hup
      omega
    · simp [failArgs] at hup
  · split at hu
    · simp only [List.mem_cons, List.mem_singleton, List.not_mem_nil, or_false] at hu
      rcases hu with rfl | rfl
      · simp [startBatchUpdate] at hup
        omega
      · simp [failArgs] at hup
    · split at hu
      · simp only [List.mem_cons, List.mem_singleton, List.not_mem_nil, or_false] at hu
        rcases hu with rfl | rfl | rfl
        · simp [startBatchUpdate] at hup
          omega
        · simp [comboBaseUpdate] at hup
          have h10 := baseProgress_one (video_ids.length * prompts.length)
          omega
        · simp [failArgs] at hup
      · simp only [List.mem_cons, List.mem_append, List.mem_flatMap,
          List.mem_singleton, List.not_mem_nil, or_false] at hu
        rcases hu with (rfl | ⟨⟨i, vp⟩, hie, hub⟩) | rfl
        · simp [startBatchUpdate] at hup
          omega
        · have hi : i < (combosOf video_ids prompts).length :=
            (List.mem_enum hie).1
          rw [combosOf_length] at hi
          unfold comboBlock at hub
          simp only [List.mem_cons, List.mem_append, List.mem_map,
            List.mem_singleton, List.not_mem_nil, or_false] at hub
          rcases hub with (rfl | ⟨e, _, rfl⟩) | rfl
          · simp [comboBaseUpdate] at hup
            have := baseProgress_le (video_ids.length * prompts.length) (i + 1)
              (by omega) (by omega)
            omega
          · simp [comboEstimateUpdate] at hup
            have := comboEstimate_le (video_ids.length * prompts.length) (i + 1)
              e (by omega) (by omega)
            omega
          · simp [comboEvalUpdate] at hup
            have := evalProgress_le (video_ids.length * prompts.length) (i + 1)
              (by omega) (by omega)
            omega
        · simp [completedBatchUpdate] at hup
          omega

/-- C1 amended: every progress value either background runner writes is at
most 100, and for a single-compare run the written sequence is monotonically
non-decreasing (given that the periodic estimator sampled non-decreasing,
nonnegative elapsed times).  For a batch run, an estimator write for
combination k is never more than 5 below the base progress already written
for combination k, and it is at least that base whenever
`int(85/total_combinations) ≥ 5` — which holds for every batch of at most 17
combinations; for 18 or more combinations the estimator write drops below the
already-written base (see the counterexample), so the batch sequence is not
monotonically non-decreasing. -/
theorem progress_values_discipline :
    (∀ (now : Nat) (v p : String) (models : Option (List String)) (vE cO : Bool)
        (outcome : String → CallOutcome) (lat : String → Nat)
        (estSamples : List ℚ) (evalOut : EvalOutcome),
      (∀ x ∈ progressWrites (singleJobUpdates now v p models vE cO outcome lat
        estSamples evalOut), x ≤ 100) ∧
      (estSamples.Chain' (· ≤ ·) → (∀ e ∈ estSamples, 0 ≤ e) →
        (progressWrites (singleJobUpdates now v p models vE cO outcome lat
          estSamples evalOut)).Chain' (· ≤ ·))) ∧
    (∀ (now : Nat) (video_ids prompts : List String)
        (models : Option (List String)) (vE : String → Bool) (cO : Bool)
        (outcome : String → String → String → CallOutcome)
        (lat : String → String → String → Nat)
        (samples : String → String → List ℚ)
        (evalOut : String → String → EvalOutcome),
      ∀ x ∈ progressWrites (batchJobUpdates now video_ids prompts models vE cO
        outcome lat samples evalOut), x ≤ 100) ∧
    (∀ (total combo : Nat) (e : ℚ), 0 ≤ e →
      baseProgress total combo - 5 ≤ comboEstimate total combo e ∧
      (5 ≤ comboRange total → baseProgress total combo ≤ comboEstimate total combo e)) ∧
    (∀ total : Nat, 1 ≤ total → total ≤ 17 → 5 ≤ comboRange total) := by
  refine ⟨?_, ?_, ?_, ?_⟩
  · intro now v p models vE cO outcome lat estSamples evalOut
    exact ⟨single_progress_le100 now v p models vE cO outcome lat estSamples evalOut,
      fun hs hn => single_progress_chain now v p models vE cO outcome lat
        estSamples evalOut hs hn⟩
  · intro now video_ids prompts models vE cO outcome lat samples evalOut
    exact batch_progress_le100 now video_ids prompts models vE cO outcome lat
      samples evalOut
  · intro total combo e he
    exact comboEstimate_lower total combo e he
  · intro total h1 h17
    exact comboRange_ge_five total h1 h17

/-- Witness for the amended C1 theorem at concrete runs: a single job with no
estimator samples, a 1x1 batch, and the estimator bounds at total=4. -/
theorem progress_values_discipline_witness :
    (∀ x ∈ progressWrites (singleJobUpdates 1 "v" "p" c4Models true true
      c4Outcome (fun _ => 1) [] (.ok ([], "s"))), x ≤ 100) ∧
    (progressWrites (singleJobUpdates 1 "v" "p" c4Models true true c4Outcome
      (fun _ => 1) [] (.ok ([], "s")))).Chain' (· ≤ ·) ∧
    (∀ x ∈ progressWrites (batchJobUpdates 1 ["a"] ["p"] c4Models
      (fun _ => true) true (fun _ _ _ => .ok "t") (fun _ _ _ => 1)
      (fun _ _ => []) (fun _ _ => .ok ([], "s"))), x ≤ 100) ∧
    (baseProgress 4 2 - 5 ≤ comboEstimate 4 2 0 ∧
      (5 ≤ comboRange 4 → baseProgress 4 2 ≤ comboEstimate 4 2 0)) ∧
    5 ≤ comboRange 4 := by
  obtain ⟨hsingle, hbatch, hlower, hrange⟩ := progress_values_discipline
  have h1 := hsingle 1 "v" "p" c4Models true true c4Outcome (fun _ => 1) []
    (.ok ([], "s"))
  exact ⟨h1.1, h1.2 (by simp) (by simp),
    hbatch 1 ["a"] ["p"] c4Models (fun _ => true) true (fun _ _ _ => .ok "t")
      (fun _ _ _ => 1) (fun _ _ => []) (fun _ _ => .ok ([], "s")),
    hlower 4 2 0 le_rfl, hrange 4 (by norm_num) (by norm_num)⟩
